import Mathlib

/-!
# go-db: schema synthesis and graph persistence

A shallow embedding of `repository.go` and `annotation.go` of the `db` package.

Modelling conventions

* A Go `string` is a Lean `String`, that is a sequence of Unicode code points
  (well-formed UTF-8 text).  `for i, r := range s` visits the code points in
  order, `i` being the byte offset of `r`.
* `fmt.Sprintf` with `%s` verbs is string concatenation.
* A Go `map[string][]Column` is an association list with distinct keys; the
  order in which `range` visits a map is not fixed by Go, so every function
  that ranges over a map takes the visiting order as given by the list.
* A run-time panic is the value `none` of an `Option` (or the constructor
  `panicked` where the effects issued before the panic matter).
* The goroutines of the statement executor are the moves of a transition
  system on a state that holds the position of the main goroutine, the counter
  of the wait group and the goroutines by what they do next; a run is a path,
  `Run.successors` lists the moves of a state, and a send on the unbuffered
  channel is one move together with its receive.
-/

namespace GoDb

/-! ## Naming normalizer (`CamelToSnake`, repository.go 493-511) -/

/-- The constant `low` of `CamelToSnake`. -/
def low : String := "abcdefghijklmnopqrstuvwxyz"

/-- Model of `strings.ToUpper`: every code point is mapped to its upper case
(the argument here is ASCII). -/
def ToUpper (s : String) : String := ⟨s.data.map Char.toUpper⟩

/-- The local `upper := strings.ToUpper(low)`. -/
def upper : String := ToUpper low

/-- Model of `strings.Contains(s, string(r))` for a single code point `r`. -/
def ContainsRune (s : String) (r : Char) : Bool := s.data.contains r

/-- Model of `strings.Index(s, string(r))` for an ASCII string `s`: the offset
of the first occurrence of `r`. -/
def IndexRune (s : String) (r : Char) : Nat := s.data.indexOf r

/-- Model of `string(s[idx])` for an ASCII string `s` and an index in range. -/
def byteAt (s : String) (idx : Nat) : Char := s.data.getD idx '\x00'

/-- The body of the `for i, r := range s` loop of `CamelToSnake`: `i` is the
byte offset of the code point `r`, `ret` the accumulator. -/
def CamelToSnake.loop : List Char → Nat → List Char → List Char
  | [], _, ret => ret
  | r :: rest, i, ret =>
    if ContainsRune upper r then
      let idx := IndexRune upper r
      let rep := byteAt low idx
      if i = 0 then
        CamelToSnake.loop rest (i + r.utf8Size) (ret ++ [rep])
      else
        CamelToSnake.loop rest (i + r.utf8Size) (ret ++ ['_', rep])
    else
      CamelToSnake.loop rest (i + r.utf8Size) (ret ++ [r])

/-- Model of `func CamelToSnake(s string) string`. -/
def CamelToSnake (s : String) : String := ⟨CamelToSnake.loop s.data 0 []⟩

/-- The per-character reference of the specification: a letter `A`-`Z` at
index 0 becomes its lower-case letter, a letter `A`-`Z` at a later index becomes
an underscore followed by its lower-case letter, and any other character is
kept. -/
def snakePiece (idx : Nat) (c : Char) : List Char :=
  if c.isUpper then (if idx = 0 then [c.toLower] else ['_', c.toLower]) else [c]

/-- Concatenation of the reference pieces of the characters from index `idx`
on. -/
def snakePieces : Nat → List Char → List Char
  | _, [] => []
  | idx, c :: cs => snakePiece idx c ++ snakePieces (idx + 1) cs

/-- The reference definition of the normalizer, following the words of the
specification. -/
def CamelToSnakeSpec (s : String) : String := ⟨snakePieces 0 s.data⟩

/-- The facts the loop needs about the letter with code `n`, as a boolean
test: it is found in `upper`, the byte of `low` at its offset is its lower-case
letter, and that letter is not itself in `A`-`Z`. -/
def letterOk (n : Nat) : Bool :=
  ContainsRune upper (Char.ofNat n) &&
    (byteAt low (IndexRune upper (Char.ofNat n)) == (Char.ofNat n).toLower) &&
    !(Char.ofNat n).toLower.isUpper

/-! ## Run-time type information (`reflect`) -/

/-- The kinds of `reflect.Kind`. -/
inductive Kind
  | Invalid | Bool | Int | Int8 | Int16 | Int32 | Int64 | Uint | Uint8 | Uint16 | Uint32
  | Uint64 | Uintptr | Float32 | Float64 | Complex64 | Complex128 | Array | Chan | Func
  | Interface | Map | Ptr | Slice | String | Struct | UnsafePointer
  deriving DecidableEq, Repr

/-- A struct tag, as the sequence of its `key:"value"` pairs. -/
abbrev StructTag := List (String × String)

/-- Model of `StructTag.Lookup`: the value of the first pair with the given key; `none`
when the key is absent (the `ok` result is `isSome`). -/
def StructTag.Lookup (tag : StructTag) (key : String) : Option String :=
  match tag with
  | [] => none
  | (k, v) :: rest => if k = key then some v else StructTag.Lookup rest key

mutual
/-- A `reflect.Type`, as far as the package inspects it: pointers and structs
are explicit, `basic` stands for every type of another kind (strings, numbers,
arrays, slices, maps, functions, channels, ...), whose structure is never
looked at. -/
inductive RType
  | basic (kind : Kind) (name : String)
  | ptr (elem : RType)
  | struct (name : String) (fields : List StructField)
/-- A `reflect.StructField`: name, type and tag of one declared field. -/
inductive StructField
  | mk (Name : String) (Typ : RType) (Tag : StructTag)
end

/-- Field accessor `field.Name`. -/
def StructField.Name : StructField → String
  | .mk n _ _ => n

/-- Field accessor `field.Type`. -/
def StructField.Typ : StructField → RType
  | .mk _ t _ => t

/-- Field accessor `field.Tag`. -/
def StructField.Tag : StructField → StructTag
  | .mk _ _ t => t

/-- Model of `Type.Kind()`. -/
def RType.Kind : RType → Kind
  | .basic k _ => k
  | .ptr _ => Kind.Ptr
  | .struct _ _ => Kind.Struct

/-- Model of `Type.Name()`: a pointer type has no name. -/
def RType.Name : RType → String
  | .basic _ n => n
  | .ptr _ => ""
  | .struct n _ => n

/-- Model of `Type.Elem()` of a pointer type.  It is only called on types of kind `Ptr`;
for a `basic` value of that kind the pointee is a type nothing is known of. -/
def RType.Elem : RType → RType
  | .ptr e => e
  | _ => .basic Kind.Invalid ""

/-- The declared fields of a struct type (none for a `basic` value). -/
def RType.fields : RType → List StructField
  | .struct _ fs => fs
  | _ => []

/-- Model of `Type.NumField()`: panics (`none`) unless the kind is `Struct`. -/
def RType.NumField (t : RType) : Option Nat :=
  if t.Kind = Kind.Struct then some t.fields.length else none

/-- Model of `Type.Field(i)`: panics (`none`) unless the kind is `Struct` and `i` is in
range. -/
def RType.Field (t : RType) (i : Nat) : Option StructField :=
  if t.Kind = Kind.Struct then t.fields.get? i else none

/-! ## Column descriptors (annotation.go) -/

/-- The type `Column` (`type Column struct`, annotation.go 8-20). -/
structure Column where
  AttributeName : String := ""
  ColumnString : String := ""
  TypeString : String := ""
  ForeignKey : String := ""
  ReferenceString : String := ""
  PrimaryKey : String := ""
  NullString : String := ""
  DefaultString : String := ""
  JoinString : String := ""
  TableName : String := ""
  SQLDefinition : String := ""
  deriving DecidableEq, Repr

/-- A `map[string][]Column`: distinct keys, each with its descriptor sequence. -/
abbrev SchemaMap := List (String × List Column)

/-- The read `columns[key]`: the empty sequence for an absent key. -/
def SchemaMap.at (m : SchemaMap) (key : String) : List Column :=
  match m with
  | [] => []
  | (k, v) :: rest => if k = key then v else SchemaMap.at rest key

/-- The statement `columns[key] = append(columns[key], c)`. -/
def SchemaMap.appendAt (m : SchemaMap) (key : String) (c : Column) : SchemaMap :=
  match m with
  | [] => [(key, [c])]
  | (k, v) :: rest =>
    if k = key then (k, v ++ [c]) :: rest else (k, v) :: SchemaMap.appendAt rest key c

/-- The statement `if ok { target = value }` for a looked-up annotation: the
annotation value when present, the current value of the target otherwise. -/
def ifOk (looked : Option String) (current : String) : String :=
  match looked with
  | some v => v
  | none => current

/-- The statement
`if nullStringOk && nullString == "true" { column.NullString = "null" }
 else if nullStringOk && nullString == "false" { column.NullString = "not null" }`
of the text and integer cases (annotation.go 102-106, 124-128, 163-167). -/
def nullTrueFalse (null : Option String) (column : Column) : Column :=
  if null = some "true" then { column with NullString := "null" }
  else if null = some "false" then { column with NullString := "not null" }
  else column

/-- The descriptor that `regularLogic` appends to `columns[key]` for a field:
the empty `Column{}` for a field tagged `dbskip` or without a `column`
annotation, and otherwise the `column` value built by the `switch` on the kind
of the field (annotation.go 41-203). -/
def regularLogic.column (field : StructField) : Column :=
  if (field.Tag.Lookup "dbskip").isSome then {} else
  let datatype := field.Tag.Lookup "datatype"
  let primaryKey := field.Tag.Lookup "primaryKey"
  let foreignKey := field.Tag.Lookup "foreignKey"
  let references := field.Tag.Lookup "references"
  let null := field.Tag.Lookup "null"
  let default := field.Tag.Lookup "default"
  let join := field.Tag.Lookup "join"
  let tableName := field.Tag.Lookup "tableName"
  match field.Tag.Lookup "column" with
  | none => {}
  | some columnString =>
    let column : Column := { AttributeName := field.Name, ColumnString := columnString }
    let column := { column with TableName := ifOk tableName column.TableName }
    match field.Typ.Kind with
    | Kind.String =>
      let column :=
        match datatype with
        | some datatypeString =>
          if datatypeString = "uuid.UUID" then
            { column with
              TypeString := "varchar(35)"
              PrimaryKey := ifOk primaryKey column.PrimaryKey
              NullString := ifOk null column.NullString
              DefaultString := ifOk default column.DefaultString
              ForeignKey := ifOk foreignKey column.ForeignKey
              ReferenceString := ifOk references column.ReferenceString }
          else if datatypeString = "time.TIME" then
            { column with
              TypeString := "datetime"
              DefaultString := ifOk default column.DefaultString
              NullString := ifOk null column.NullString }
          else
            { column with TypeString := datatypeString }
        | none => { column with TypeString := "varchar(255)" }
      let column := nullTrueFalse null column
      { column with DefaultString := ifOk default column.DefaultString }
    | Kind.Int8 | Kind.Int16 | Kind.Int32 | Kind.Int64 | Kind.Int =>
      let column := { column with TypeString := (match datatype with
        | some datatypeString => datatypeString
        | none => "integer") }
      let column := nullTrueFalse null column
      { column with DefaultString := ifOk default column.DefaultString }
    | Kind.Bool =>
      let column := { column with TypeString := (match datatype with
        | some datatypeString => datatypeString
        | none => "tinyint(1)") }
      { column with DefaultString := ifOk default column.DefaultString }
    | Kind.Float32 | Kind.Float64 =>
      { column with TypeString := (match datatype with
        | some datatypeString => datatypeString
        | none => "float(8,2)") }
    | Kind.Uint8 | Kind.Uint16 | Kind.Uint32 | Kind.Uint64 | Kind.Uint =>
      let column := { column with TypeString := (match datatype with
        | some datatypeString => datatypeString
        | none => "integer") }
      let column := nullTrueFalse null column
      { column with DefaultString := ifOk default column.DefaultString }
    | Kind.Array | Kind.Slice =>
      { column with JoinString := ifOk join column.JoinString }
    | Kind.Ptr =>
      let ptrField := field.Typ.Elem
      let column :=
        if ptrField.Kind = Kind.Array ∨ ptrField.Kind = Kind.Slice then
          { column with JoinString := ifOk join column.JoinString }
        else column
      if ptrField.Kind = Kind.Struct then
        { column with
          TypeString := "varchar(35)"
          ForeignKey := ifOk foreignKey column.ForeignKey
          ReferenceString := ifOk references column.ReferenceString
          NullString := ifOk null column.NullString }
      else column
    | Kind.Struct => column
    | _ => column

/-- Whether `regularLogic` reaches `case reflect.Struct` for the field: it is
not tagged `dbskip`, it has a `column` annotation and its kind is `Struct`. -/
def regularLogic.recurses (field : StructField) : Bool :=
  !(field.Tag.Lookup "dbskip").isSome && (field.Tag.Lookup "column").isSome &&
    decide (field.Typ.Kind = Kind.Struct)

mutual
/-- Model of `func processTypeForColumns(t, columns, key)`.  The map is shared and
updated in place, so the function is modelled as returning the updated map.
The deferred `recover` has nothing to catch here: every `t.Field(i)` of the
loop is in range. -/
def processTypeForColumns : RType → SchemaMap → String → SchemaMap
  | .struct _ fields, columns, key => processTypeForColumns.loop fields columns key
  | .basic _ _, columns, _ => columns
  | .ptr _, columns, _ => columns
/-- The loop `for i := 0; i < t.NumField(); i++` of `processTypeForColumns`,
over the fields `t.Field(i)` in declaration order. -/
def processTypeForColumns.loop : List StructField → SchemaMap → String → SchemaMap
  | [], columns, _ => columns
  | field :: rest, columns, key =>
    if (field.Tag.Lookup "dbskip").isSome then
      processTypeForColumns.loop rest columns key
    else
      processTypeForColumns.loop rest (regularLogic.field field columns key) key
/-- The body of `regularLogic` for the field `field := t.Field(idx)`: in
`case reflect.Struct` the nested type is first walked into the same map under
the key `field.Name`; in every case one descriptor is appended under `key`. -/
def regularLogic.field : StructField → SchemaMap → String → SchemaMap
  | .mk name typ tag, columns, key =>
    if regularLogic.recurses (.mk name typ tag) then
      SchemaMap.appendAt (processTypeForColumns typ columns name) key
        (regularLogic.column (.mk name typ tag))
    else
      SchemaMap.appendAt columns key (regularLogic.column (.mk name typ tag))
end

/-- Model of `func regularLogic(t, columns, key, idx)`; `none` is the panic of
`t.Field(idx)` on an index out of range or a type that is not a struct. -/
def regularLogic (t : RType) (columns : SchemaMap) (key : String) (idx : Nat) :
    Option SchemaMap :=
  match t.Field idx with
  | none => none
  | some field => some (regularLogic.field field columns key)

/-- The kinds for which `regularLogic` records the `null` annotation: text,
the integer kinds it lists, and pointer to a record. -/
def recordsNull (t : RType) : Bool :=
  match t.Kind with
  | Kind.String => true
  | Kind.Int8 | Kind.Int16 | Kind.Int32 | Kind.Int64 | Kind.Int => true
  | Kind.Uint8 | Kind.Uint16 | Kind.Uint32 | Kind.Uint64 | Kind.Uint => true
  | Kind.Ptr => decide (t.Elem.Kind = Kind.Struct)
  | _ => false

/-! ## Column rendering (`Column.GenerateSQL`, repository.go 513-578) -/

/-- Model of `func (c *Column) GenerateSQL()`: the receiver with `SQLDefinition` set.
The `switch` on `c.TypeString` is written as a chain of tests, the cases that
fall through into one another sharing a test. -/
def Column.GenerateSQL (c : Column) : Column :=
  if c.ColumnString ≠ "" then
    let c := { c with SQLDefinition := "    " ++ c.ColumnString }
    if c.TypeString ≠ "" then
      let ds := if c.DefaultString ≠ "" then " DEFAULT " ++ c.DefaultString else ""
      if c.TypeString = "varchar(35)" ∨ c.TypeString = "uuid.UUID" then
        let c := { c with SQLDefinition := c.SQLDefinition ++ " varchar(35)" }
        let c := if c.NullString ≠ "" then
          { c with SQLDefinition := c.SQLDefinition ++ " NOT NULL" } else c
        let c := { c with SQLDefinition := c.SQLDefinition ++ ds }
        if c.PrimaryKey ≠ "" then
          { c with SQLDefinition := c.SQLDefinition ++ " PRIMARY KEY" } else c
      else if c.TypeString = "datetime" ∨ c.TypeString = "time.TIME" then
        let c := { c with SQLDefinition := c.SQLDefinition ++ " DATETIME" }
        let c := if c.NullString ≠ "" then
          { c with SQLDefinition := c.SQLDefinition ++ " NOT NULL" } else c
        { c with SQLDefinition := c.SQLDefinition ++ ds }
      else if c.TypeString = "bool" then
        let c := { c with SQLDefinition := c.SQLDefinition ++ " TINYINT(1)" }
        let c := if c.NullString ≠ "" then
          { c with SQLDefinition := c.SQLDefinition ++ " NOT NULL" } else c
        { c with SQLDefinition := c.SQLDefinition ++ ds }
      else if c.TypeString = "float" then
        let c := { c with SQLDefinition := c.SQLDefinition ++ " FLOAT(8, 2)" }
        let c := if c.NullString ≠ "" then
          { c with SQLDefinition := c.SQLDefinition ++ " NOT NULL" } else c
        { c with SQLDefinition := c.SQLDefinition ++ ds }
      else if c.TypeString = "int" ∨ c.TypeString = "time.Duration" then
        let c := { c with SQLDefinition := c.SQLDefinition ++ " INT" }
        let c := if c.NullString ≠ "" then
          { c with SQLDefinition := c.SQLDefinition ++ " NOT NULL" } else c
        { c with SQLDefinition := c.SQLDefinition ++ ds }
      else if c.TypeString = "long" then
        let c := { c with SQLDefinition := c.SQLDefinition ++ " TEXT" }
        let c := if c.NullString ≠ "" then
          { c with SQLDefinition := c.SQLDefinition ++ " NOT NULL" } else c
        { c with SQLDefinition := c.SQLDefinition ++ ds }
      else
        let c := { c with SQLDefinition := c.SQLDefinition ++ " varchar(255)" }
        let c := if c.NullString ≠ "" then
          { c with SQLDefinition := c.SQLDefinition ++ " NOT NULL" } else c
        { c with SQLDefinition := c.SQLDefinition ++ ds }
    else c
  else c

/-- The type keyword (with its leading blank) that the `switch` of
`Column.GenerateSQL` emits for a non-empty `TypeString`. -/
def typeKeyword (t : String) : String :=
  if t = "varchar(35)" ∨ t = "uuid.UUID" then " varchar(35)"
  else if t = "datetime" ∨ t = "time.TIME" then " DATETIME"
  else if t = "bool" then " TINYINT(1)"
  else if t = "float" then " FLOAT(8, 2)"
  else if t = "int" ∨ t = "time.Duration" then " INT"
  else if t = "long" then " TEXT"
  else " varchar(255)"

/-- The column definition of a field: its descriptor built by `regularLogic`,
then rendered by `Column.GenerateSQL`. -/
def renderField (field : StructField) : String :=
  (regularLogic.column field).GenerateSQL.SQLDefinition

/-- The text `sub` occurs in the text `s`. -/
def Contains (s sub : String) : Prop := sub.data <:+: s.data

/-- The text `s` ends with `suffix`. -/
def HasSuffix (s suffix : String) : Prop := suffix.data <:+ s.data

instance (s sub : String) : Decidable (Contains s sub) := by
  unfold Contains; infer_instance

instance (s suffix : String) : Decidable (HasSuffix s suffix) := by
  unfold HasSuffix; infer_instance

/-! ## Schema synthesis (`CreateTables`, repository.go 369-442) -/

/-- The type `JoinTable` (`type JoinTable struct`, repository.go 33-39). -/
structure JoinTable where
  FirstTable : String := ""
  SecondTable : String := ""
  FirstKey : String := ""
  SecondKey : String := ""
  SQL : String := ""
  deriving DecidableEq, Repr

/-- The type `Alters` (`type Alters struct`, repository.go 41-47). -/
structure Alters where
  Table : String := ""
  Key : String := ""
  ForeignKey : String := ""
  Reference : String := ""
  SQL : String := ""
  deriving DecidableEq, Repr

/-- Model of `func (c *Alters) GenerateSQL(tableName string)`: the receiver with `SQL`
set. -/
def Alters.GenerateSQL (c : Alters) (tableName : String) : Alters :=
  let tableName := CamelToSnake tableName
  { c with SQL := "ALTER TABLE `" ++ tableName ++ "` ADD CONSTRAINT `" ++
      ("fk_" ++ tableName ++ "_" ++ c.Reference) ++ "` FOREIGN KEY (`" ++ c.ForeignKey ++
      "`) REFERENCES `" ++ c.Reference ++ "` (`id`)" }

/-- The pieces of a text between the occurrences of the character `sep`. -/
def splitRunes (sep : Char) : List Char → List (List Char)
  | [] => [[]]
  | c :: cs =>
    if c = sep then [] :: splitRunes sep cs
    else
      match splitRunes sep cs with
      | [] => [[c]]
      | piece :: pieces => (c :: piece) :: pieces

/-- Model of `strings.Split(s, sep)` for a separator of one character. -/
def Split (s : String) (sep : Char) : List String :=
  (splitRunes sep s.data).map String.mk

/-- Model of `strings.Join(elems, sep)`. -/
def Join (elems : List String) (sep : String) : String :=
  match elems with
  | [] => ""
  | [e] => e
  | e :: rest => e ++ sep ++ Join rest sep

/-- The variables of `CreateTables` that live across all iterations of the
synthesis loops: `joins`, `alters`, `tables` and `tableName`. -/
structure Synthesis where
  joins : List JoinTable := []
  alters : List Alters := []
  tables : List String := []
  tableName : String := ""
  deriving DecidableEq, Repr

/-- The body of `for _, attribute := range attributes` (repository.go 381-437),
`attr` being the loop variable `attribute` and `alter` the local `at`:
`st` holds the variables of the function, `columns` is the list of column lines
of the current key.  `none` is the panic of an index out of range in the
parsing of the join annotation. -/
def CreateTables.step (key : String) (st : Synthesis) (columns : List String)
    (attr : Column) : Option (Synthesis × List String) :=
  let tableName := if attr.TableName ≠ "" then attr.TableName else st.tableName
  let st := { st with tableName := tableName }
  let column :=
    if attr.ColumnString ≠ "" ∧ attr.JoinString = "" ∧ attr.TypeString ≠ "" then
      attr.GenerateSQL.SQLDefinition
    else ""
  let joined : Option Synthesis :=
    if attr.ColumnString ≠ "" ∧ attr.JoinString ≠ "" then
      let first := Split attr.JoinString ','
      match first.get? 0, first.get? 1 with
      | some first0, some first1 =>
        let t1 := Split first0 ':'
        let t2 := Split first1 ':'
        match t1.get? 0, t1.get? 1, t2.get? 0, t2.get? 1 with
        | some t10, some t11, some t20, some t21 =>
          let jt : JoinTable :=
            { FirstTable := t10, FirstKey := t11, SecondTable := t20, SecondKey := t21 }
          let tableName :=
            if st.tableName = "" then CamelToSnake (jt.FirstTable ++ "_" ++ jt.SecondTable)
            else st.tableName
          let jt := { jt with SQL := "CREATE TABLE IF NOT EXISTS " ++ tableName ++ " (" ++
            jt.FirstKey ++ " varchar(35) not null, " ++ jt.SecondKey ++ " varchar(35) not null)" }
          let alter1 : Alters :=
            { Table := tableName, Reference := jt.FirstTable, ForeignKey := jt.FirstKey }
          let alter1 := alter1.GenerateSQL tableName
          let alter2 : Alters :=
            { Table := tableName, Reference := jt.SecondTable, ForeignKey := jt.SecondKey }
          let alter2 := alter2.GenerateSQL tableName
          some { st with
            tableName := tableName
            alters := st.alters ++ [alter1, alter2]
            joins := st.joins ++ [jt] }
        | _, _, _, _ => none
      | _, _ => none
    else some st
  match joined with
  | none => none
  | some st =>
    let st :=
      if attr.ReferenceString ≠ "" then
        let tableName := if st.tableName = "" then CamelToSnake key else st.tableName
        let alter : Alters :=
          { Table := tableName, Reference := attr.ReferenceString,
            Key := attr.ColumnString }
        let alter := if attr.ForeignKey ≠ "" then
          { alter with ForeignKey := attr.ForeignKey } else alter
        let alter := alter.GenerateSQL alter.Table
        { st with tableName := tableName, alters := st.alters ++ [alter] }
      else st
    let columns := if column ≠ "" then columns ++ [column] else columns
    some (st, columns)

/-- The loop `for _, attribute := range attributes`. -/
def CreateTables.attributes (key : String) (st : Synthesis) (columns : List String) :
    List Column → Option (Synthesis × List String)
  | [] => some (st, columns)
  | attr :: rest =>
    match CreateTables.step key st columns attr with
    | none => none
    | some (st, columns) => CreateTables.attributes key st columns rest

/-- The body of `for key, attributes := range columns` (repository.go 379-441):
the attributes of one key, then the `CREATE TABLE` statement of the key when it
has at least one column line. -/
def CreateTables.key (st : Synthesis) (key : String) (attributes : List Column) :
    Option Synthesis :=
  match CreateTables.attributes key st [] attributes with
  | none => none
  | some (st, columns) =>
    if columns.length > 0 then
      some { st with tables := st.tables ++
        ["CREATE TABLE IF NOT EXISTS " ++ CamelToSnake key ++ " (\r\n" ++
          Join columns ",\r\n" ++ "\r\n)\r\n"] }
    else some st

/-- The loop `for key, attributes := range columns` over one map, its entries
taken in the order of the list. -/
def CreateTables.map (st : Synthesis) : SchemaMap → Option Synthesis
  | [] => some st
  | (key, attributes) :: rest =>
    match CreateTables.key st key attributes with
    | none => none
    | some st => CreateTables.map st rest

/-- The loop `for _, columns := range cols` (repository.go 378-442). -/
def CreateTables.maps (st : Synthesis) : List SchemaMap → Option Synthesis
  | [] => some st
  | columns :: rest =>
    match CreateTables.map st columns with
    | none => none
    | some st => CreateTables.maps st rest

/-- The synthesis part of `CreateTables` (repository.go 374-442) on the maps
`cols` returned by `readAnnotations`: the join tables, the alter statements and
the `CREATE TABLE` statements, or `none` when the function panics. -/
def CreateTables.synthesis (cols : List SchemaMap) : Option Synthesis :=
  CreateTables.maps {} cols

/-- Model of `func readAnnotations`: one map per registered entity type, built by
`processTypeForColumns` under the name of the type (of the pointee for a
pointer), followed by the zero value received from the closed channel.  The
maps are listed in registration order, one of the orders in which the workers
may deliver them. -/
def readAnnotations (tables : List RType) : List SchemaMap :=
  if tables.length > 0 then
    tables.map (fun t =>
      let name := if t.Kind = Kind.Ptr then t.Elem.Name else t.Name
      processTypeForColumns t [] name) ++ [[]]
  else []

/-- The name `CreateTables` gives the join table of a descriptor: the override
of the descriptor, or else the name carried in `tableName`, or else
`CamelToSnake(T1 + "_" + T2)`. -/
def joinTableName (st : Synthesis) (attr : Column) (T1 T2 : String) : String :=
  if attr.TableName ≠ "" then attr.TableName
  else if st.tableName ≠ "" then st.tableName
  else CamelToSnake (T1 ++ "_" ++ T2)

/-- The text has neither of the separators `,` and `:` of a join
annotation. -/
def separatorFree (s : String) : Prop := ',' ∉ s.data ∧ ':' ∉ s.data

instance (s : String) : Decidable (separatorFree s) := by
  unfold separatorFree; infer_instance

/-- The statements of the join tables produced by a run of the synthesis on the
registered types. -/
def joinStatements (tables : List RType) : Option (List String) :=
  (CreateTables.synthesis (readAnnotations tables)).map fun st => st.joins.map (·.SQL)

/-- The numbers of `CREATE TABLE` statements, join tables and alter statements
of a run of the synthesis on the registered types. -/
def schemaSize (tables : List RType) : Option (Nat × Nat × Nat) :=
  (CreateTables.synthesis (readAnnotations tables)).map fun st =>
    (st.tables.length, st.joins.length, st.alters.length)

/-! ## Graph persistence (`Save`, `SaveAll`, `SaveChildren`, repository.go 162-230) -/

/-- A handle on an `Entity` value of the running program. -/
abbrev Ent := Nat

/-- A value passed to the database driver as a statement argument. -/
abbrev Value := String

/-- One call of `c.DB.Conn.Query`: the statement text and its arguments. -/
structure Stmt where
  SQL : String
  args : List Value
  deriving DecidableEq, Repr

/-- What the persister sees of the entities and of the database.  An `error`
is its text.  `GetJoin` yields `some j` when the returned `IJoinTable` is also an
`Entity` (the type assertion `join.(Entity)` succeeds).  `Query` is the
database: given the statements issued so far and the next statement, the error
it answers with, if any. -/
structure World where
  TypeOf : Ent → RType
  GetTable : Ent → String
  GetChildren : Ent → Except String (List Ent)
  GetJoin : Ent → Ent → Except String (Option Ent)
  FieldValue : Ent → Nat → Value
  Query : List Stmt → Stmt → Option String

/-- Model of `func GetColumns(ent Entity) []string` on `r := reflect.TypeOf(ent)`; `none`
is the panic of `r.NumField()` on a type that is not a struct. -/
def GetColumns (r : RType) : Option (List String) :=
  match r.NumField with
  | none => none
  | some _ => some (r.fields.filterMap fun field => field.Tag.Lookup "column")

/-- Model of `func GetPlaceholders(ent Entity) []string` on `r := reflect.TypeOf(ent)`. -/
def GetPlaceholders (r : RType) : Option (List String) :=
  match r.NumField with
  | none => none
  | some _ =>
    some (r.fields.filterMap fun field => (field.Tag.Lookup "column").map fun _ => "?")

/-- The loop `for i := 0; i < v.NumField(); i++` of `GetValues`, with `n`
iterations left: `t.Field(i)` is taken on `t := reflect.TypeOf(ent)` itself. -/
def GetValues.loop (w : World) (ent : Ent) (t : RType) :
    Nat → Nat → List Value → Option (List Value)
  | 0, _, results => some results
  | n + 1, i, results =>
    match t.Field i with
    | none => none
    | some field =>
      if (field.Tag.Lookup "column").isSome then
        GetValues.loop w ent t n (i + 1) (results ++ [w.FieldValue ent i])
      else
        GetValues.loop w ent t n (i + 1) results

/-- Model of `func GetValues(ent Entity) []interface{}`.  `reflect.ValueOf(ent).Elem()`
panics unless the entity is a pointer, `v.NumField()` panics unless it points
to a struct, and `t.Field(i)` panics because `t` is the pointer type itself. -/
def GetValues (w : World) (ent : Ent) : Option (List Value) :=
  let t := w.TypeOf ent
  if t.Kind = Kind.Ptr then
    match t.Elem.NumField with
    | none => none
    | some n => GetValues.loop w ent t n 0 []
  else none

/-- Model of `func insertQuery(columns, placeholders, table string) string`. -/
def insertQuery (columns placeholders table : String) : String :=
  "INSERT (" ++ columns ++ ") VALUES (" ++ placeholders ++ ") INTO " ++ table ++
    " ON DUPLICATE KEY UPDATE"

/-- The three helpers that derive the row of an entity, each `none` when it
panics. -/
structure RowHelpers where
  GetColumns : Ent → Option (List String)
  GetPlaceholders : Ent → Option (List String)
  GetValues : Ent → Option (List Value)

/-- The helpers of the source: `GetColumns`, `GetPlaceholders` and `GetValues`
on the entity. -/
def World.helpers (w : World) : RowHelpers where
  GetColumns := fun ent => GoDb.GetColumns (w.TypeOf ent)
  GetPlaceholders := fun ent => GoDb.GetPlaceholders (w.TypeOf ent)
  GetValues := fun ent => GoDb.GetValues w ent

/-- How a call ends: it returns a value, or it panics, or the model runs out of
fuel (the recursion is deeper than the bound given); with the statements issued
until then. -/
inductive Res (α : Type)
  | returned (a : α) (log : List Stmt)
  | panicked (log : List Stmt)
  | outOfFuel
  deriving DecidableEq, Repr

/-- A computation that issues statements: from the statements issued so far to
its end. -/
def Exec (α : Type) : Type := List Stmt → Res α

/-- Sequencing: a panic or an exhausted bound ends the whole computation. -/
def Exec.bind {α β : Type} (x : Exec α) (f : α → Exec β) : Exec β := fun log =>
  match x log with
  | .returned a log => f a log
  | .panicked log => .panicked log
  | .outOfFuel => .outOfFuel

instance : Monad Exec where
  pure := fun a log => .returned a log
  bind := Exec.bind

/-- The result of a helper that may panic. -/
def Exec.ofOption {α : Type} : Option α → Exec α
  | some a => pure a
  | none => fun log => .panicked log

/-- The call `c.DB.Conn.Query(q, args...)`: the statement is issued and the
database answers. -/
def World.exec (w : World) (q : String) (args : List Value) : Exec (Option String) :=
  fun log => .returned (w.Query log ⟨q, args⟩) (log ++ [⟨q, args⟩])

/-- The loop `for _, v := range ents` of `SaveAll`, given the methods `Save`
and `SaveChildren`; `save` and `joins` are the locals of `SaveAll`.  The result
is `Except.error err` for a `return err` inside the loop and the final `joins`
otherwise. -/
def Repository.SaveAll.loop (h : RowHelpers) (w : World)
    (Save : Ent → Exec (Option String))
    (SaveChildren : Ent → List Ent → List Ent →
      Exec (List Ent × List (Option Ent) × Option String)) :
    List Ent → List Ent → List (Option Ent) → Exec (Except String (List (Option Ent)))
  | [], _, joins => pure (.ok joins)
  | v :: rest, save, _ => do
    let save := save ++ [v]
    let _placeholders ← Exec.ofOption (h.GetPlaceholders v)
    let _values ← Exec.ofOption (h.GetValues v)
    match w.GetChildren v with
    | .error err => pure (.error err)
    | .ok children =>
      let err ← Save v
      match err with
      | some err => pure (.error err)
      | none =>
        let (save, joins, _err) ← SaveChildren v children save
        Repository.SaveAll.loop h w Save SaveChildren rest save joins

/-- The loop `for _, j := range joins` of `SaveAll`. -/
def Repository.SaveAll.joins (Save : Ent → Exec (Option String)) :
    List (Option Ent) → Exec (Option String)
  | [] => pure none
  | j :: rest =>
    match j with
    | some e => do
      let err ← Save e
      match err with
      | some err => pure (some err)
      | none => Repository.SaveAll.joins Save rest
    | none => Repository.SaveAll.joins Save rest

/-- The loop `for _, s := range children` of `SaveChildren`, given the methods
`Save` and `SaveChildren`. -/
def Repository.SaveChildren.loop (w : World) (parent : Ent) (save : List Ent)
    (Save : Ent → Exec (Option String))
    (SaveChildren : Ent → List Ent → List Ent →
      Exec (List Ent × List (Option Ent) × Option String)) :
    List Ent → Exec (List Ent × List (Option Ent) × Option String)
  | [] => pure (save, [], none)
  | s :: rest => do
    let _ ← Save s
    match w.GetJoin parent s with
    | .error err => pure ([], [], some err)
    | .ok join =>
      let _err ← (match join with
        | some j => Save j
        | none => pure none)
      match w.GetChildren s with
      | .error err => pure ([], [], some err)
      | .ok childrenWithJoins =>
        let _ ← (if childrenWithJoins.length > 0 then
            SaveChildren s childrenWithJoins save
          else pure (save, [], none))
        Repository.SaveChildren.loop w parent save Save SaveChildren rest

mutual
/-- Model of `func (c Repository) Save(ent Entity) error` with the row helpers `h`; the
first argument bounds the depth of the calls. -/
def Repository.SaveWith (h : RowHelpers) (w : World) : Nat → Ent → Exec (Option String)
  | 0, _ => fun _ => .outOfFuel
  | fuel + 1, ent => do
    let columns ← Exec.ofOption (h.GetColumns ent)
    let placeholders ← Exec.ofOption (h.GetPlaceholders ent)
    let q := insertQuery (Join columns ",") (Join placeholders ",") (w.GetTable ent)
    let values ← Exec.ofOption (h.GetValues ent)
    let err ← w.exec q values
    match err with
    | some err => pure (some err)
    | none =>
      match w.GetChildren ent with
      | .error err => pure (some err)
      | .ok ents => Repository.SaveAllWith h w fuel ents
/-- Model of `func (c Repository) SaveAll(ents []Entity) error` with the row helpers
`h`. -/
def Repository.SaveAllWith (h : RowHelpers) (w : World) : Nat → List Ent → Exec (Option String)
  | 0, _ => fun _ => .outOfFuel
  | fuel + 1, ents => do
    let r ← Repository.SaveAll.loop h w (Repository.SaveWith h w fuel)
      (Repository.SaveChildrenWith h w fuel) ents [] []
    match r with
    | .error err => pure (some err)
    | .ok joins => Repository.SaveAll.joins (Repository.SaveWith h w fuel) joins
/-- Model of `func (c Repository) SaveChildren(parent, children, save)` with the row
helpers `h`. -/
def Repository.SaveChildrenWith (h : RowHelpers) (w : World) :
    Nat → Ent → List Ent → List Ent → Exec (List Ent × List (Option Ent) × Option String)
  | 0, _, _, _ => fun _ => .outOfFuel
  | fuel + 1, parent, children, save =>
    Repository.SaveChildren.loop w parent save (Repository.SaveWith h w fuel)
      (Repository.SaveChildrenWith h w fuel) children
end

/-- The method `Repository.Save` of the source: `SaveWith` on its own helpers. -/
def Repository.Save (w : World) (fuel : Nat) (ent : Ent) : Exec (Option String) :=
  Repository.SaveWith w.helpers w fuel ent

/-- The method `Repository.SaveAll` of the source: `SaveAllWith` on its own
helpers. -/
def Repository.SaveAll (w : World) (fuel : Nat) (ents : List Ent) : Exec (Option String) :=
  Repository.SaveAllWith w.helpers w fuel ents

/-- The method `Repository.SaveChildren` of the source: `SaveChildrenWith` on
its own helpers. -/
def Repository.SaveChildren (w : World) (fuel : Nat) (parent : Ent)
    (children save : List Ent) : Exec (List Ent × List (Option Ent) × Option String) :=
  Repository.SaveChildrenWith w.helpers w fuel parent children save

/-! ## Fields used as examples -/

/-- The field `ID` of `type Model struct` (struct.go 84). -/
def Model.ID : StructField :=
  .mk "ID" (.basic Kind.String "string")
    [("json", "id"), ("column", "id"), ("datatype", "uuid.UUID"), ("null", "false"),
      ("primaryKey", "true")]

/-- A text field with the identifier datatype and an empty `primaryKey`
annotation. -/
def emptyPrimaryKeyField : StructField :=
  .mk "ID" (.basic Kind.String "string")
    [("column", "id"), ("datatype", "uuid.UUID"), ("primaryKey", "")]

/-- A text field with the identifier datatype and an empty `column`
annotation. -/
def emptyColumnField : StructField :=
  .mk "ID" (.basic Kind.String "string")
    [("column", ""), ("datatype", "uuid.UUID"), ("primaryKey", "true")]

/-- A text field with the identifier datatype that is also tagged `dbskip`. -/
def skippedKeyField : StructField :=
  .mk "ID" (.basic Kind.String "string")
    [("column", "id"), ("datatype", "uuid.UUID"), ("primaryKey", "true"), ("dbskip", "")]

/-- A text-kind field that carries a `column` annotation, the datatype
`uuid.UUID` and a `primaryKey` annotation. -/
def identifierKeyField (f : StructField) : Prop :=
  f.Typ.Kind = Kind.String ∧ (f.Tag.Lookup "column").isSome ∧
    f.Tag.Lookup "datatype" = some "uuid.UUID" ∧ (f.Tag.Lookup "primaryKey").isSome

instance (f : StructField) : Decidable (identifierKeyField f) := by
  unfold identifierKeyField; infer_instance

/-- A boolean field with `null:"false"`. -/
def boolNullField : StructField :=
  .mk "Active" (.basic Kind.Bool "bool") [("column", "active"), ("null", "false")]

/-- A floating-point field with `null:"false"`. -/
def floatNullField : StructField :=
  .mk "Price" (.basic Kind.Float64 "float64") [("column", "price"), ("null", "false")]

/-- An integer field with `null:"false"`. -/
def intNullField : StructField :=
  .mk "Count" (.basic Kind.Int "int") [("column", "count"), ("null", "false")]

/-- A boolean field without a datatype annotation. -/
def boolField : StructField :=
  .mk "Active" (.basic Kind.Bool "bool") [("column", "active")]

/-- A floating-point field without a datatype annotation. -/
def floatField : StructField :=
  .mk "Price" (.basic Kind.Float64 "float64") [("column", "price")]

/-- An integer field without a datatype annotation. -/
def intField : StructField :=
  .mk "Count" (.basic Kind.Int "int") [("column", "count")]

/-! ## Record types used as examples -/

/-- A record with an identifier and two join fields, neither of which has a
`tableName` annotation. -/
def Order : RType :=
  .struct "Order"
    [.mk "ID" (.basic Kind.String "string")
        [("column", "id"), ("datatype", "uuid.UUID"), ("primaryKey", "true")],
      .mk "Products" (.basic Kind.Slice "")
        [("column", "products"), ("join", "Order:order_id,Product:product_id")],
      .mk "Tags" (.basic Kind.Slice "")
        [("column", "tags"), ("join", "Order:order_id,Tag:tag_id")]]

/-- The record `Order` without its field `Products`. -/
def OrderTagsOnly : RType :=
  .struct "Order"
    [.mk "ID" (.basic Kind.String "string")
        [("column", "id"), ("datatype", "uuid.UUID"), ("primaryKey", "true")],
      .mk "Tags" (.basic Kind.Slice "")
        [("column", "tags"), ("join", "Order:order_id,Tag:tag_id")]]

/-- The field `Products` of the record `Order`. -/
def Order.Products : StructField :=
  .mk "Products" (.basic Kind.Slice "")
    [("column", "products"), ("join", "Order:order_id,Product:product_id")]

/-- A slice field tagged `dbskip` that also carries `column`, `join` and
`references` annotations. -/
def skippedJoinField : StructField :=
  .mk "Legacy" (.basic Kind.Slice "")
    [("dbskip", ""), ("column", "legacy"), ("join", "Order:order_id,Legacy:legacy_id"),
      ("references", "legacy")]

/-! ## A record graph used as example -/

/-- The type of the rows of the example: a struct with one persisted field. -/
def Row : RType :=
  .struct "Row" [.mk "ID" (.basic Kind.String "string") [("column", "id")]]

/-- A parent (entity 0) with two leaf children (entities 1 and 2), whose joins
to the parent are themselves entities (3 and 4), and a database that accepts
every statement.  Every entity is a struct value of type `Row`. -/
def family : World where
  TypeOf := fun _ => Row
  GetTable := fun e =>
    if e = 0 then "parent" else if e = 1 ∨ e = 2 then "child" else "parent_child"
  GetChildren := fun e => if e = 0 then .ok [1, 2] else .ok []
  GetJoin := fun p s =>
    if p = 0 ∧ s = 1 then .ok (some 3) else if p = 0 ∧ s = 2 then .ok (some 4) else .ok none
  FieldValue := fun e _ =>
    if e = 0 then "p" else if e = 1 then "c1" else if e = 2 then "c2"
    else if e = 3 then "j1" else "j2"
  Query := fun _ _ => none

/-- The name `CreateTables` gives the table of an alter statement for a
reference: the override of the descriptor, or else the name carried in
`tableName`, or else `CamelToSnake(key)`. -/
def referenceTableName (st : Synthesis) (attr : Column) (key : String) : String :=
  if attr.TableName ≠ "" then attr.TableName
  else if st.tableName ≠ "" then st.tableName
  else CamelToSnake key

/-- The alter statements produced by a run of the synthesis on the registered
types, each as its table, key, foreign key and reference. -/
def alterFields (tables : List RType) : Option (List (String × String × String × String)) :=
  (CreateTables.synthesis (readAnnotations tables)).map fun st =>
    st.alters.map fun a => (a.Table, a.Key, a.ForeignKey, a.Reference)

/-- The texts of the alter statements produced by a run of the synthesis on the
registered types. -/
def alterStatements (tables : List RType) : Option (List String) :=
  (CreateTables.synthesis (readAnnotations tables)).map fun st => st.alters.map (·.SQL)

/-- A record `Invoice` with a pointer to a record `Order`, tagged as a
reference. -/
def Invoice : RType :=
  .struct "Invoice"
    [.mk "Order" (.ptr (.struct "Order" []))
        [("column", "order_id"), ("references", "order")]]

/-- A record `Shipment` with a pointer to a record `Order`, tagged as a
reference. -/
def Shipment : RType :=
  .struct "Shipment"
    [.mk "Order" (.ptr (.struct "Order" []))
        [("column", "order_id"), ("references", "order")]]

/-- The alter statement that `CreateTables` builds for the reference field of
the record `Invoice`: table, key and reference are set, the foreign key is
not. -/
def invoiceOrderAlter : Alters :=
  { Table := "invoice", Reference := "order", Key := "order_id" }

/-- The integer kinds that the `switch` of `regularLogic` lists: `int`, `uint`
and their sized variants. -/
def isIntegerKind (k : Kind) : Bool :=
  k = Kind.Int8 ∨ k = Kind.Int16 ∨ k = Kind.Int32 ∨ k = Kind.Int64 ∨ k = Kind.Int ∨
    k = Kind.Uint8 ∨ k = Kind.Uint16 ∨ k = Kind.Uint32 ∨ k = Kind.Uint64 ∨ k = Kind.Uint

/-- The rule table of the specification for the resolved SQL type of a field,
from its kind and its `datatype` annotation; `none` for a kind the table has no
row for. -/
def ruleTable (field : StructField) : Option String :=
  let datatype := field.Tag.Lookup "datatype"
  let kind := field.Typ.Kind
  let pointee := field.Typ.Elem.Kind
  if kind = Kind.String then
    match datatype with
    | none => some "varchar(255)"
    | some d =>
      if d = "uuid.UUID" then some "varchar(35)"
      else if d = "time.TIME" then some "datetime"
      else some d
  else if isIntegerKind kind then some (ifOk datatype "integer")
  else if kind = Kind.Bool then some (ifOk datatype "tinyint(1)")
  else if kind = Kind.Float32 ∨ kind = Kind.Float64 then some (ifOk datatype "float(8,2)")
  else if kind = Kind.Ptr ∧ pointee = Kind.Struct then some "varchar(35)"
  else if kind = Kind.Array ∨ kind = Kind.Slice then some ""
  else if kind = Kind.Ptr ∧ (pointee = Kind.Array ∨ pointee = Kind.Slice) then some ""
  else none

/-- A field of kind `uintptr` with a `column` annotation. -/
def uintptrField : StructField :=
  .mk "Handle" (.basic Kind.Uintptr "uintptr") [("column", "handle")]

/-- A descriptor of type `int` with a primary-key string, as a caller of the
package may build it. -/
def intKeyColumn : Column :=
  { ColumnString := "n", TypeString := "int", PrimaryKey := "true" }

/-- The test of `CreateTables` for a descriptor that renders a column line: a
non-empty column name, no join annotation and a non-empty type. -/
def rendersLine (attr : Column) : Bool :=
  decide (attr.ColumnString ≠ "" ∧ attr.JoinString = "" ∧ attr.TypeString ≠ "")

/-- The column lines of a descriptor sequence: the rendered definitions of the
descriptors that render a line, in the order of the sequence. -/
def columnLines (attrs : List Column) : List String :=
  (attrs.filter rendersLine).map fun attr => attr.GenerateSQL.SQLDefinition

/-- The join annotation has the parts that `CreateTables` indexes: a piece
after the first comma, and in each of the first two pieces a piece after the
first colon. -/
def joinParses (join : String) : Bool :=
  let first := Split join ','
  match first.get? 0, first.get? 1 with
  | some first0, some first1 =>
    ((Split first0 ':').get? 0).isSome && ((Split first0 ':').get? 1).isSome &&
      ((Split first1 ':').get? 0).isSome && ((Split first1 ':').get? 1).isSome
  | _, _ => false

/-- Every join annotation that `CreateTables` parses in the sequence (those of
descriptors with a column name) has the parts it indexes. -/
def joinsParse (attrs : List Column) : Prop :=
  ∀ attr ∈ attrs, attr.ColumnString ≠ "" → attr.JoinString ≠ "" →
    joinParses attr.JoinString = true

/-- The `CREATE TABLE` statement of a key with the given column lines. -/
def createStatement (key : String) (lines : List String) : String :=
  "CREATE TABLE IF NOT EXISTS " ++ CamelToSnake key ++ " (\r\n" ++ Join lines ",\r\n" ++
    "\r\n)\r\n"

instance (attrs : List Column) : Decidable (joinsParse attrs) := by
  unfold joinsParse; infer_instance

/-- The descriptors that extraction builds for a record with the fields `ID`
of `Model` and `Products` of `Order`. -/
def orderDescriptors : List Column :=
  [regularLogic.column Model.ID, regularLogic.column Order.Products]

/-- The `CREATE TABLE` statements produced by a run of the synthesis on the
registered types; `none` when the run panics. -/
def createStatements (tables : List RType) : Option (List String) :=
  (CreateTables.synthesis (readAnnotations tables)).map fun st => st.tables

/-- A well-formed record with an identifier and a text field. -/
def Product : RType :=
  .struct "Product"
    [.mk "ID" (.basic Kind.String "string")
        [("column", "id"), ("datatype", "uuid.UUID"), ("primaryKey", "true")],
      .mk "Name" (.basic Kind.String "string") [("column", "name")]]

/-- A record whose join annotation has no comma. -/
def CartNoComma : RType :=
  .struct "Cart"
    [.mk "ID" (.basic Kind.String "string")
        [("column", "id"), ("datatype", "uuid.UUID"), ("primaryKey", "true")],
      .mk "Items" (.basic Kind.Slice "") [("column", "items"), ("join", "Cart:cart_id")]]

/-- The descriptors that extraction builds for the record `CartNoComma`: that
of the identifier and that of the join field. -/
def cartDescriptors : List Column :=
  [regularLogic.column (.mk "ID" (.basic Kind.String "string")
      [("column", "id"), ("datatype", "uuid.UUID"), ("primaryKey", "true")]),
    regularLogic.column
      (.mk "Items" (.basic Kind.Slice "") [("column", "items"), ("join", "Cart:cart_id")])]

/-- The record `CartNoComma` with a well-formed join annotation. -/
def CartJoined : RType :=
  .struct "Cart"
    [.mk "ID" (.basic Kind.String "string")
        [("column", "id"), ("datatype", "uuid.UUID"), ("primaryKey", "true")],
      .mk "Items" (.basic Kind.Slice "")
        [("column", "items"), ("join", "Cart:cart_id,Item:item_id")]]

/-- A record whose join annotation has a comma but no colon. -/
def CartNoColon : RType :=
  .struct "Cart"
    [.mk "ID" (.basic Kind.String "string")
        [("column", "id"), ("datatype", "uuid.UUID"), ("primaryKey", "true")],
      .mk "Items" (.basic Kind.Slice "") [("column", "items"), ("join", "Cart,Item")]]

/-- The graph of `family` with every entity registered by pointer: a
`*Row`. -/
def familyByPointer : World :=
  { family with TypeOf := fun _ => .ptr Row }

/-- The descriptors that the walk of a record appends for its own fields: one
per field that is not tagged `dbskip`, in declaration order. -/
def ownDescriptors (fields : List StructField) : List Column :=
  (fields.filter fun field => !(field.Tag.Lookup "dbskip").isSome).map regularLogic.column

/-- A record `Address` with one text field. -/
def Address : RType :=
  .struct "Address" [.mk "Street" (.basic Kind.String "string") [("column", "street")]]

/-- The field `Home Address` of the record `Customer`: a nested record whose
field name differs from its type name. -/
def Customer.Home : StructField :=
  .mk "Home" Address [("column", "home")]

/-- A record `Customer` with an identifier and the nested record `Home`. -/
def Customer : RType :=
  .struct "Customer"
    [.mk "ID" (.basic Kind.String "string")
        [("column", "id"), ("datatype", "uuid.UUID"), ("primaryKey", "true")],
      Customer.Home]

/-- A floating-point field with `null:"true"` and a default expression. -/
def floatDefaultField : StructField :=
  .mk "Price" (.basic Kind.Float64 "float64")
    [("column", "price"), ("null", "true"), ("default", "0")]

/-- A pointer-to-record field with `null:"true"` and a default expression. -/
def pointerNullField : StructField :=
  .mk "Owner" (.ptr (.struct "User" []))
    [("column", "owner_id"), ("null", "true"), ("default", "NULL")]

/-! ## Row operations (repository.go 67-111, 232-279) -/

/-- What one row operation gets back: the error of `c.DB.Conn.Query` (with it
the returned `rows` is nil), the error of `rows.Err()`, and the error of the
`Scan` method of the entity.  An `error` is its text, `none` is `nil`. -/
structure Answer where
  queryErr : Option String := none
  rowsErr : Option String := none
  scanErr : Option String := none
  deriving DecidableEq, Repr

/-- How a row operation ends: it returns its error result, or it panics. -/
inductive Outcome
  | returned (err : Option String)
  | panicked
  deriving DecidableEq, Repr

/-- The verb `%q` of `fmt` on an identifier without quotes, backslashes or
control characters: the text in double quotes. -/
def quoted (s : String) : String := "\"" ++ s ++ "\""

/-- Model of `func handleSQLError(rows, e, action, err, id) error`, with
`rowsErr` for `rows.Err()` and `table` for `e.GetTable()`. -/
def handleSQLError (rowsErr : Option String) (table action : String) (err : Option String)
    (id : String) : Option String :=
  if id = "" then
    match err with
    | some err => some (table ++ " " ++ action ++ ": " ++ err)
    | none =>
      match rowsErr with
      | some err => some (table ++ " " ++ action ++ ": " ++ err)
      | none => none
  else
    match err with
    | some err => some (table ++ " " ++ action ++ " " ++ quoted id ++ ": " ++ err)
    | none =>
      match rowsErr with
      | some err => some (table ++ " " ++ action ++ " " ++ quoted id ++ ": " ++ err)
      | none => none

/-- The effect of a `defer rows.Close()` placed before the test of the error of
`Query`: at the return `Close` runs on a nil `*sql.Rows` when `Query` failed,
which panics, and the result is lost. -/
def deferredClose (a : Answer) (result : Option String) : Outcome :=
  if a.queryErr.isSome then .panicked else .returned result

/-- Model of `func (c Repository) Select(ent, id)`: its error result. -/
def Repository.Select (table id : String) (a : Answer) : Outcome :=
  deferredClose a
    (match a.queryErr with
      | some err => some (table ++ " " ++ quoted id ++ ": " ++ err)
      | none => handleSQLError a.rowsErr table "SELECT" a.scanErr id)

/-- Model of `func (c Repository) SelectIn(ent, ids)`: its error result.  The
function never reads `rows.Err()`. -/
def Repository.SelectIn (a : Answer) : Outcome :=
  deferredClose a
    (match a.queryErr with
      | some err => some err
      | none => a.scanErr)

/-- Model of `func (c Repository) Take(result, id)`: the error of `Query` is
tested before `rows.Close()` is deferred. -/
def Repository.Take (table id : String) (a : Answer) : Outcome :=
  match a.queryErr with
  | some err => .returned (some (table ++ " " ++ quoted id ++ ": " ++ err))
  | none => .returned (handleSQLError a.rowsErr table "SELECT" a.scanErr id)

/-- Model of `func (c Repository) Update(e, id, updates)`. -/
def Repository.Update (table id : String) (a : Answer) : Outcome :=
  deferredClose a (handleSQLError a.rowsErr table "UPDATE" a.queryErr id)

/-- Model of `func (c Repository) Insert(e)`: the statement is built with
`GetColumns`, `GetPlaceholders` and `GetValues`, each of which may panic. -/
def Repository.Insert (w : World) (ent : Ent) (a : Answer) : Outcome :=
  match GetColumns (w.TypeOf ent), GetPlaceholders (w.TypeOf ent), GetValues w ent with
  | some _, some _, some _ =>
    deferredClose a (handleSQLError a.rowsErr (w.GetTable ent) "INSERT" a.queryErr "")
  | _, _, _ => .panicked

/-- Model of `func (c Repository) Delete(e)`, with `getID` for the result of
`e.GetID()`: the identity is read but the empty text is passed on to
`handleSQLError`. -/
def Repository.Delete (table : String) (getID : Except String String) (a : Answer) :
    Outcome :=
  match getID with
  | .error err => .returned (some err)
  | .ok _ => deferredClose a (handleSQLError a.rowsErr table "DELETE" a.queryErr "")

/-- A pointer-to-record field with `foreignKey` and `references` annotations
and no `column` annotation. -/
def pointerWithoutColumn : StructField :=
  .mk "Owner" (.ptr (.struct "User" []))
    [("foreignKey", "owner_fk"), ("references", "user")]

/-- A pointer-to-record field with `column`, `foreignKey` and `references`
annotations. -/
def pointerReferenceField : StructField :=
  .mk "Owner" (.ptr (.struct "User" []))
    [("column", "owner_id"), ("foreignKey", "owner_fk"), ("references", "user")]

/-- An integer field with `primaryKey`, `foreignKey` and `references`
annotations. -/
def intKeyField : StructField :=
  .mk "Count" (.basic Kind.Int "int")
    [("column", "count"), ("primaryKey", "true"), ("foreignKey", "fk"), ("references", "other")]

/-- A pointer-to-record field with `column`, `foreignKey` and `references`
annotations that is also tagged `dbskip`. -/
def pointerSkipped : StructField :=
  .mk "Owner" (.ptr (.struct "User" []))
    [("dbskip", ""), ("column", "owner_id"), ("foreignKey", "owner_fk"),
      ("references", "user")]

/-! ## The statement executor (`CreateTables`, repository.go 443-490)

The executor runs one goroutine per statement.  Its runs are the paths of a
transition system: a state records where the main goroutine stands, the
counter of the wait group `wg`, the goroutines of the statements by what they
do next, and the channel `erchan`, which has no buffer, so that a send
completes only together with a receive. -/

/-- The two batches of statements: the `CREATE TABLE` statements of the tables
and of the join tables (loops at 444-463), and the `ALTER TABLE` statements
(loop at 465-474). -/
inductive Phase
  | create
  | alter
  deriving DecidableEq, Repr

/-- One goroutine `go func(s string)` of the executor: its batch and its
statement `s`. -/
structure Task where
  phase : Phase
  stmt : String
  deriving DecidableEq, Repr

/-- Where the main goroutine stands: in the loops at 444-463, at `wg.Wait()`
(464), in the loop at 465-474, in the receive loop (482-489), or past
`return nil`. -/
inductive Pc
  | dispatchCreate
  | barrier
  | dispatchAlter
  | drain
  | returned
  deriving DecidableEq, Repr

/-- A state of a run of the executor. -/
structure Run where
  /-- Position of the main goroutine. -/
  pc : Pc := Pc.dispatchCreate
  /-- Statements of `tables` and `joins` not yet handed to a goroutine. -/
  toCreate : List String := []
  /-- Statements of `alters` not yet handed to a goroutine. -/
  toAlter : List String := []
  /-- The counter of `wg`. -/
  wg : Nat := 0
  /-- Goroutines started that have not yet called `c.DB.Conn.Query(s)`. -/
  spawned : List Task := []
  /-- Goroutines whose query failed, each standing at `erchan <- msg` with its
  message. -/
  sending : List (Task × String) := []
  /-- Goroutines past the query and the send, before the deferred `wg.Done()`. -/
  finishing : List Task := []
  /-- Goroutines that have called `wg.Done()`. -/
  done : List Task := []
  /-- Whether the goroutine of 475-478 stands at its `wg.Wait()`. -/
  closer : Bool := false
  /-- Whether `erchan` is closed. -/
  closed : Bool := false
  /-- The lines written through `log`, in order. -/
  log : List String := []
  deriving DecidableEq, Repr

/-- The goroutines of a state that have not yet called `wg.Done()`. -/
def Run.running (s : Run) : List Task :=
  s.spawned ++ s.sending.map Prod.fst ++ s.finishing

/-- All goroutines of a state. -/
def Run.tasks (s : Run) : List Task :=
  s.running ++ s.done

/-- Every way of taking one element out of a list: the element and the others. -/
def picks {α : Type} : List α → List (α × List α)
  | [] => []
  | x :: xs => (x, xs) :: (picks xs).map fun p => (p.1, x :: p.2)

/-- The message `fmt.Sprintf("%s:%s", s, err.Error())` of a failed statement. -/
def failureLine (s err : String) : String :=
  s ++ ":" ++ err

/-- The steps of the main goroutine.  `wg.Wait()` lets it pass only when the
counter is zero; `<-erchan` takes the message of one goroutine standing at its
send, or the zero value once the channel is closed, and the line is logged
before `open` is tested. -/
def Run.mainSteps (s : Run) : List Run :=
  match s.pc with
  | Pc.dispatchCreate =>
    match s.toCreate with
    | k :: rest =>
      [{ s with toCreate := rest, wg := s.wg + 1, spawned := s.spawned ++ [⟨Phase.create, k⟩] }]
    | [] => [{ s with pc := Pc.barrier }]
  | Pc.barrier => if s.wg = 0 then [{ s with pc := Pc.dispatchAlter }] else []
  | Pc.dispatchAlter =>
    match s.toAlter with
    | k :: rest =>
      [{ s with toAlter := rest, wg := s.wg + 1, spawned := s.spawned ++ [⟨Phase.alter, k⟩] }]
    | [] => [{ s with pc := Pc.drain, closer := true, log := s.log ++ ["error count: 0"] }]
  | Pc.drain =>
    (picks s.sending).map (fun p =>
      { s with sending := p.2, finishing := s.finishing ++ [p.1.1], log := s.log ++ [p.1.2] })
    ++ (if s.closed then [{ s with pc := Pc.returned, log := s.log ++ [""] }] else [])
  | Pc.returned => []

/-- The steps of the statement goroutines under the database `db`, which
gives the error text of a statement that fails: a started goroutine runs its
query and goes on to the send when it failed; a goroutine past both calls the
deferred `wg.Done()`. -/
def Run.taskSteps (db : String → Option String) (s : Run) : List Run :=
  (picks s.spawned).map (fun p =>
    match db p.1.stmt with
    | some err =>
      { s with spawned := p.2, sending := s.sending ++ [(p.1, failureLine p.1.stmt err)] }
    | none => { s with spawned := p.2, finishing := s.finishing ++ [p.1] })
  ++ (picks s.finishing).map (fun p =>
    { s with finishing := p.2, done := s.done ++ [p.1], wg := s.wg - 1 })

/-- The step of the goroutine of 475-478: past `wg.Wait()` it closes `erchan`. -/
def Run.closerSteps (s : Run) : List Run :=
  if s.closer = true ∧ s.wg = 0 then [{ s with closer := false, closed := true }] else []

/-- All states that one step of one goroutine leads to. -/
def Run.successors (db : String → Option String) (s : Run) : List Run :=
  s.mainSteps ++ s.taskSteps db ++ s.closerSteps

/-- The state in which the executor starts on the result of the synthesis. -/
def Executor.init (st : Synthesis) : Run :=
  { toCreate := st.tables ++ st.joins.map (·.SQL), toAlter := st.alters.map (·.SQL) }

/-- The states that the runs of the executor from `s0` pass through. -/
inductive Reachable (db : String → Option String) (s0 : Run) : Run → Prop
  | start : Reachable db s0 s0
  | step {s s1 : Run} : Reachable db s0 s → s1 ∈ s.successors db → Reachable db s0 s1

/-- The messages that the failing statements of a list give rise to. -/
def failureLines (db : String → Option String) (stmts : List String) : List String :=
  stmts.filterMap fun s => (db s).map (failureLine s)

/-- The steps of `Run.successors`, one rule for each kind of step, with the
goroutine that moves singled out in its list. -/
inductive Step (db : String → Option String) : Run → Run → Prop
  | spawnCreate (s : Run) (k : String) (rest : List String) :
      s.pc = Pc.dispatchCreate → s.toCreate = k :: rest →
      Step db s
        { s with toCreate := rest, wg := s.wg + 1, spawned := s.spawned ++ [⟨Phase.create, k⟩] }
  | toBarrier (s : Run) :
      s.pc = Pc.dispatchCreate → s.toCreate = [] → Step db s { s with pc := Pc.barrier }
  | pass (s : Run) :
      s.pc = Pc.barrier → s.wg = 0 → Step db s { s with pc := Pc.dispatchAlter }
  | spawnAlter (s : Run) (k : String) (rest : List String) :
      s.pc = Pc.dispatchAlter → s.toAlter = k :: rest →
      Step db s
        { s with toAlter := rest, wg := s.wg + 1, spawned := s.spawned ++ [⟨Phase.alter, k⟩] }
  | toDrain (s : Run) :
      s.pc = Pc.dispatchAlter → s.toAlter = [] →
      Step db s { s with pc := Pc.drain, closer := true, log := s.log ++ ["error count: 0"] }
  | receive (s : Run) (pre post : List (Task × String)) (t : Task) (msg : String) :
      s.pc = Pc.drain → s.sending = pre ++ (t, msg) :: post →
      Step db s
        { s with sending := pre ++ post, finishing := s.finishing ++ [t], log := s.log ++ [msg] }
  | receiveClosed (s : Run) :
      s.pc = Pc.drain → s.closed = true →
      Step db s { s with pc := Pc.returned, log := s.log ++ [""] }
  | queryFails (s : Run) (pre post : List Task) (t : Task) (err : String) :
      s.spawned = pre ++ t :: post → db t.stmt = some err →
      Step db s
        { s with spawned := pre ++ post, sending := s.sending ++ [(t, failureLine t.stmt err)] }
  | queryOk (s : Run) (pre post : List Task) (t : Task) :
      s.spawned = pre ++ t :: post → db t.stmt = none →
      Step db s { s with spawned := pre ++ post, finishing := s.finishing ++ [t] }
  | finish (s : Run) (pre post : List Task) (t : Task) :
      s.finishing = pre ++ t :: post →
      Step db s { s with finishing := pre ++ post, done := s.done ++ [t], wg := s.wg - 1 }
  | close (s : Run) :
      s.closer = true → s.wg = 0 → Step db s { s with closer := false, closed := true }

/-- What holds of every state of a run on the statements `creates` and
`alters`: the counter of `wg` is the number of goroutines that have not yet
called `wg.Done()`; up to the barrier there are only goroutines of the first
batch, nothing is logged and the channel is open; past the barrier no statement
of the first batch is left and no goroutine of the first batch is running; and
the statements of each batch are those left plus those handed to goroutines. -/
structure Run.Inv (creates alters : List String) (s : Run) : Prop where
  wg_eq : s.wg = s.running.length
  early : s.pc = Pc.dispatchCreate ∨ s.pc = Pc.barrier →
    (∀ t ∈ s.tasks, t.phase = Phase.create) ∧ s.closer = false ∧ s.closed = false ∧
      s.log = [] ∧ s.toAlter = alters
  left : s.pc ≠ Pc.dispatchCreate → s.toCreate = []
  late : ¬ (s.pc = Pc.dispatchCreate ∨ s.pc = Pc.barrier) →
    ∀ t ∈ s.running, t.phase = Phase.alter
  creates_perm :
    (s.toCreate ++ (s.tasks.filter fun t => t.phase = Phase.create).map (·.stmt)).Perm creates
  alters_perm :
    (s.toAlter ++ (s.tasks.filter fun t => t.phase = Phase.alter).map (·.stmt)).Perm alters

/-- The state reached from `s` by taking, at each step, the successor with the
given index in `Run.successors`; `none` when there is no such successor. -/
def Run.follow (db : String → Option String) : Run → List Nat → Option Run
  | s, [] => some s
  | s, i :: rest =>
    match (s.successors db).get? i with
    | some s1 => Run.follow db s1 rest
    | none => none

/-- The `CREATE TABLE` statement of the record `Invoice`. -/
def invoiceCreate : String :=
  "CREATE TABLE IF NOT EXISTS invoice (\r\n    order_id varchar(35)\r\n)\r\n"

/-- The alter statement of the record `Invoice`. -/
def invoiceAlter : String :=
  "ALTER TABLE `invoice` ADD CONSTRAINT `fk_invoice_order` FOREIGN KEY (``) " ++
    "REFERENCES `order` (`id`)"

/-- The result of the synthesis on the record `Invoice`: one `CREATE TABLE`
statement and one alter statement. -/
def invoiceSchema : Synthesis :=
  { tables := [invoiceCreate]
    alters := [invoiceOrderAlter.GenerateSQL "invoice"]
    tableName := "invoice" }

/-- A database that rejects the `CREATE TABLE` statement of `invoiceSchema` and
accepts every other statement. -/
def rejectsCreate (s : String) : Option String :=
  if s = invoiceCreate then some "Error 1142: CREATE command denied" else none

/-- A database that rejects the alter statement of `invoiceSchema` and accepts
every other statement. -/
def rejectsAlter (s : String) : Option String :=
  if s = invoiceAlter then some "Error 1064: syntax error" else none

/-- The state of the run on `invoiceSchema` under `rejectsCreate` in which the
main goroutine stands at `wg.Wait()` and the goroutine of the `CREATE TABLE`
statement at its send. -/
def blockedRun : Run :=
  { pc := Pc.barrier
    toAlter := [invoiceAlter]
    wg := 1
    sending := [(⟨Phase.create, invoiceCreate⟩,
      failureLine invoiceCreate "Error 1142: CREATE command denied")] }

/-- The state of the run on `invoiceSchema` under `rejectsAlter` in which the
goroutine of the alter statement has just been started. -/
def alterStartedRun : Run :=
  { pc := Pc.dispatchAlter
    wg := 1
    spawned := [⟨Phase.alter, invoiceAlter⟩]
    done := [⟨Phase.create, invoiceCreate⟩] }

/-- The state of the run on `invoiceSchema` under `rejectsAlter` in which the
main goroutine has returned. -/
def returnedRun : Run :=
  { pc := Pc.returned
    done := [⟨Phase.create, invoiceCreate⟩, ⟨Phase.alter, invoiceAlter⟩]
    closed := true
    log := ["error count: 0", failureLine invoiceAlter "Error 1064: syntax error", ""] }

/-- A bound on the number of steps left to a run: every step makes it smaller.
A statement not yet handed out counts four (start, query, receive, done), a
goroutine what it has left, the main goroutine two for each position ahead,
and the closing goroutine one while it waits. -/
def Run.measure (s : Run) : Nat :=
  4 * s.toCreate.length + 4 * s.toAlter.length + 3 * s.spawned.length +
    2 * s.sending.length + s.finishing.length +
    (match s.pc with
      | Pc.dispatchCreate => 8
      | Pc.barrier => 6
      | Pc.dispatchAlter => 4
      | Pc.drain => 2
      | Pc.returned => 0) +
    (if s.closer then 1 else 0)

/-- What holds of every state of a run past the first batch, under the
database `db` and on the alter statements `alters`: the closing goroutine waits
only while the main goroutine is in the receive loop and the channel is open;
once the channel is closed no goroutine is running; in the receive loop the
closing goroutine waits or has closed the channel; every goroutine at its send
has a failed statement; and the messages logged, those of the goroutines at
their send, and those of the failing statements not yet queried are together
the messages of the failing alter statements. -/
structure Run.Late (db : String → Option String) (alters : List String) (s : Run) : Prop where
  closer_at : s.closer = true → s.pc = Pc.drain ∧ s.closed = false
  closed_at : s.closed = true → s.running = [] ∧ (s.pc = Pc.drain ∨ s.pc = Pc.returned)
  drain_at : s.pc = Pc.drain → (s.closer = true ∨ s.closed = true) ∧ s.toAlter = []
  returned_at : s.pc = Pc.returned → s.closed = true ∧ s.toAlter = []
  sending_failed : ∀ p ∈ s.sending, ∃ err, db p.1.stmt = some err
  logged : ¬ (s.pc = Pc.dispatchCreate ∨ s.pc = Pc.barrier) →
    ∃ msgs, s.log = (if s.pc = Pc.dispatchAlter then [] else ["error count: 0"]) ++ msgs ++
        (if s.pc = Pc.returned then [""] else []) ∧
      (s.pc = Pc.dispatchAlter → msgs = []) ∧
      (msgs ++ s.sending.map Prod.snd ++ failureLines db (s.spawned.map (·.stmt)) ++
        failureLines db s.toAlter).Perm (failureLines db alters)

/-- The column names rendered in the `CREATE TABLE` statement of a record type:
those of the descriptors extracted under the name of the type that pass the
test of `CreateTables` for a column line, in order. -/
def schemaColumns (t : RType) : List String :=
  (((processTypeForColumns t [] t.Name).at t.Name).filter rendersLine).map (·.ColumnString)

/-- A field whose `column` annotation, if any, ends up as a column line: it is
not tagged `dbskip`, it is not a nested record, and its descriptor passes the
test of `CreateTables` for a column line. -/
def plainField (field : StructField) : Prop :=
  field.Tag.Lookup "dbskip" = none ∧ regularLogic.recurses field = false ∧
    ((field.Tag.Lookup "column").isSome = true → rendersLine (regularLogic.column field) = true)

/-- A record `Basket` with an identifier, a field tagged `dbskip`, a join field
and a field of map kind, each with a `column` annotation. -/
def Basket : RType :=
  .struct "Basket"
    [.mk "ID" (.basic Kind.String "string")
        [("column", "id"), ("datatype", "uuid.UUID"), ("primaryKey", "true")],
      .mk "Secret" (.basic Kind.String "string") [("column", "secret"), ("dbskip", "true")],
      .mk "Items" (.basic Kind.Slice "") [("column", "items"), ("join", "Basket:basket_id,Item:item_id")],
      .mk "Extra" (.basic Kind.Map "") [("column", "extra")]]

/-! # Theorems -/

/-! ### Lemmas on the normalizer -/

theorem upper_data : upper.data = "ABCDEFGHIJKLMNOPQRSTUVWXYZ".data := by decide

theorem isUpper_iff_toNat (c : Char) : c.isUpper = true ↔ 65 ≤ c.toNat ∧ c.toNat ≤ 90 := by
  simp only [Char.isUpper, Bool.and_eq_true, decide_eq_true_eq, Char.toNat]
  constructor
  · rintro ⟨h1, h2⟩
    exact ⟨UInt32.le_def.mp h1, UInt32.le_def.mp h2⟩
  · rintro ⟨h1, h2⟩
    exact ⟨UInt32.le_def.mpr h1, UInt32.le_def.mpr h2⟩

theorem letterOk_all : ∀ n : Fin 26, letterOk (65 + n.val) = true := by decide

theorem upper_letter (c : Char) (h : c.isUpper = true) :
    ContainsRune upper c = true ∧ byteAt low (IndexRune upper c) = c.toLower ∧
      c.toLower.isUpper = false := by
  obtain ⟨h1, h2⟩ := (isUpper_iff_toNat c).mp h
  have hc : Char.ofNat c.toNat = c := Char.ofNat_toNat c
  have hk := letterOk_all ⟨c.toNat - 65, by omega⟩
  have e : 65 + (c.toNat - 65) = c.toNat := by omega
  simp only [e, letterOk, hc, Bool.and_eq_true, beq_iff_eq, Bool.not_eq_true'] at hk
  exact ⟨hk.1.1, hk.1.2, hk.2⟩

theorem contains_upper (c : Char) : ContainsRune upper c = c.isUpper := by
  cases h : c.isUpper
  · rw [Bool.eq_false_iff]
    intro hm
    have hmem : c ∈ upper.data := by simpa [ContainsRune] using hm
    rw [upper_data] at hmem
    simp only [String.data, List.mem_cons, List.mem_singleton] at hmem
    have hu : c.isUpper = true := by
      rcases hmem with h|h|h|h|h|h|h|h|h|h|h|h|h|h|h|h|h|h|h|h|h|h|h|h|h|h|h <;>
        first | (subst h; rfl) | simp at h
    simp [h] at hu
  · exact (upper_letter c h).1

/-- The loop appends to its accumulator the reference pieces of the remaining
characters; the byte offset is zero exactly at character index zero. -/
theorem loop_eq_pieces (cs : List Char) :
    ∀ (i idx : Nat) (ret : List Char), (i = 0 ↔ idx = 0) →
      CamelToSnake.loop cs i ret = ret ++ snakePieces idx cs := by
  induction cs with
  | nil => intro i idx ret _; simp [CamelToSnake.loop, snakePieces]
  | cons c cs ih =>
    intro i idx ret hi
    have hpos : 0 < c.utf8Size := Char.utf8Size_pos c
    have hnext : (i + c.utf8Size = 0 ↔ idx + 1 = 0) := by omega
    unfold CamelToSnake.loop
    rw [contains_upper]
    cases hu : c.isUpper
    · simp [snakePieces, snakePiece, hu, ih _ _ _ hnext]
    · have hrep := (upper_letter c hu).2.1
      by_cases h0 : i = 0
      · have hidx : idx = 0 := hi.mp h0
        have h1 : (c.utf8Size = 0 ↔ 1 = 0) := by omega
        simp [snakePieces, snakePiece, hu, h0, hidx, hrep, ih _ 1 _ h1]
      · have hidx : idx ≠ 0 := fun h => h0 (hi.mpr h)
        simp [snakePieces, snakePiece, hu, h0, hidx, hrep, ih _ _ _ hnext]

theorem CamelToSnake_eq_spec (s : String) : CamelToSnake s = CamelToSnakeSpec s := by
  simp [CamelToSnake, CamelToSnakeSpec, loop_eq_pieces s.data 0 0 [] Iff.rfl]

/-- No character of the reference output is a letter `A`-`Z`. -/
theorem snakePieces_no_upper (cs : List Char) :
    ∀ (idx : Nat) (c : Char), c ∈ snakePieces idx cs → c.isUpper = false := by
  induction cs with
  | nil => intro idx c h; simp [snakePieces] at h
  | cons d ds ih =>
    intro idx c h
    simp only [snakePieces, List.mem_append] at h
    rcases h with h | h
    · unfold snakePiece at h
      cases hu : d.isUpper
      · simp [hu] at h; subst h; exact hu
      · have hl := (upper_letter d hu).2.2
        by_cases h0 : idx = 0
        · simp [hu, h0] at h; subst h; exact hl
        · simp [hu, h0] at h
          rcases h with h | h
          · subst h; rfl
          · subst h; exact hl
    · exact ih _ _ h

/-- A text without a letter `A`-`Z` is its own reference output. -/
theorem snakePieces_of_no_upper (cs : List Char) :
    ∀ (idx : Nat), (∀ c ∈ cs, c.isUpper = false) → snakePieces idx cs = cs := by
  induction cs with
  | nil => intro idx _; rfl
  | cons d ds ih =>
    intro idx h
    have hd : d.isUpper = false := h d (List.mem_cons_self _ _)
    have hds : ∀ c ∈ ds, c.isUpper = false := fun c hc => h c (List.mem_cons_of_mem _ hc)
    simp [snakePieces, snakePiece, hd, ih _ hds]

theorem CamelToSnake_of_no_upper (s : String) (h : ∀ c ∈ s.data, c.isUpper = false) :
    CamelToSnake s = s := by
  rw [CamelToSnake_eq_spec]
  simp [CamelToSnakeSpec, snakePieces_of_no_upper s.data 0 h]

theorem CamelToSnake_no_upper (s : String) :
    ∀ c ∈ (CamelToSnake s).data, c.isUpper = false := by
  rw [CamelToSnake_eq_spec]
  exact fun c hc => snakePieces_no_upper s.data 0 c hc

theorem CamelToSnake_head (c : Char) (cs : List Char) :
    (CamelToSnake ⟨c :: cs⟩).data.head? = some (if c.isUpper then c.toLower else c) := by
  rw [CamelToSnake_eq_spec]
  cases hu : c.isUpper <;> simp [CamelToSnakeSpec, snakePieces, snakePiece, hu]

/-! ### Claims on the normalizer -/

/-- C1: `CamelToSnake` equals the per-character reference definition on every
string; `CamelToSnake "CustomerOrder" = "customer_order"` and
`CamelToSnake "iD" = "i_d"`; the first character of the result is the first
character of the input (in lower case when it is a letter `A`-`Z`), never an
inserted underscore; and a string without a letter `A`-`Z` is returned
unchanged. -/
theorem C1_camelToSnake_reference :
    (∀ s : String, CamelToSnake s = CamelToSnakeSpec s) ∧
    CamelToSnake "CustomerOrder" = "customer_order" ∧
    CamelToSnake "iD" = "i_d" ∧
    (∀ (c : Char) (cs : List Char),
      (CamelToSnake ⟨c :: cs⟩).data.head? = some (if c.isUpper then c.toLower else c)) ∧
    (∀ s : String, (∀ c ∈ s.data, c.isUpper = false) → CamelToSnake s = s) :=
  ⟨CamelToSnake_eq_spec, by decide, by decide, CamelToSnake_head, CamelToSnake_of_no_upper⟩

/-- Instance of C1 at the text `order_id`, which has no letter `A`-`Z`. -/
theorem C1_camelToSnake_reference_witness :
    (∀ c ∈ ("order_id" : String).data, c.isUpper = false) ∧
      CamelToSnake "order_id" = "order_id" :=
  ⟨by decide, C1_camelToSnake_reference.2.2.2.2 "order_id" (by decide)⟩

/-- C2: `CamelToSnake` is idempotent: normalizing a normalized string changes
nothing. -/
theorem C2_camelToSnake_idempotent (x : String) :
    CamelToSnake (CamelToSnake x) = CamelToSnake x :=
  CamelToSnake_of_no_upper _ (CamelToSnake_no_upper x)

/-! ### Lemmas on texts -/

theorem data_append (a b : String) : (a ++ b).data = a.data ++ b.data := by
  cases a; cases b; rfl

theorem contains_mid (a b c : String) : Contains (a ++ b ++ c) b :=
  ⟨a.data, c.data, by simp [data_append]⟩

theorem contains_mid_tail (a b₁ b₂ c : String) : Contains (a ++ (b₁ ++ b₂) ++ c) b₂ :=
  ⟨(a ++ b₁).data, c.data, by simp [data_append]⟩

theorem hasSuffix_append (a b : String) : HasSuffix (a ++ b) b :=
  ⟨a.data, by simp [data_append]⟩

/-! ### Lemmas on descriptors and their rendering -/

@[simp] theorem nullTrueFalse_TypeString (n : Option String) (c : Column) :
    (nullTrueFalse n c).TypeString = c.TypeString := by
  unfold nullTrueFalse; split_ifs <;> rfl

@[simp] theorem nullTrueFalse_ColumnString (n : Option String) (c : Column) :
    (nullTrueFalse n c).ColumnString = c.ColumnString := by
  unfold nullTrueFalse; split_ifs <;> rfl

@[simp] theorem nullTrueFalse_PrimaryKey (n : Option String) (c : Column) :
    (nullTrueFalse n c).PrimaryKey = c.PrimaryKey := by
  unfold nullTrueFalse; split_ifs <;> rfl

/-- The descriptor of a text field with the identifier datatype. -/
theorem descriptor_uuid (field : StructField) (col pk : String)
    (hkind : field.Typ.Kind = Kind.String)
    (hskip : field.Tag.Lookup "dbskip" = none)
    (hcol : field.Tag.Lookup "column" = some col)
    (htype : field.Tag.Lookup "datatype" = some "uuid.UUID")
    (hpk : field.Tag.Lookup "primaryKey" = some pk) :
    (regularLogic.column field).ColumnString = col ∧
    (regularLogic.column field).TypeString = "varchar(35)" ∧
    (regularLogic.column field).PrimaryKey = pk := by
  unfold regularLogic.column
  simp only [hskip, hcol, htype, hkind, hpk]
  simp [ifOk]

/-- The rendering of a descriptor of type `varchar(35)`. -/
theorem render_varchar35 (c : Column) (hc : c.ColumnString ≠ "")
    (ht : c.TypeString = "varchar(35)") :
    c.GenerateSQL.SQLDefinition = "    " ++ c.ColumnString ++ " varchar(35)" ++
      ((if c.NullString ≠ "" then " NOT NULL" else "") ++
      (if c.DefaultString ≠ "" then " DEFAULT " ++ c.DefaultString else "") ++
      (if c.PrimaryKey ≠ "" then " PRIMARY KEY" else "")) := by
  simp only [Column.GenerateSQL, if_pos hc, ht]
  simp [-String.reduceAppend]
  split_ifs <;> simp [-String.reduceAppend, String.append_assoc]

/-- C3, as amended: for every text-kind field that is not tagged `dbskip`, has a
non-empty `column` annotation, the datatype `uuid.UUID` and a non-empty
`primaryKey` annotation, the column definition built by `regularLogic` and
rendered by `Column.GenerateSQL` contains `varchar(35)` and ends with
` PRIMARY KEY`. -/
theorem C3_identifier_primary_key (field : StructField) (col pk : String)
    (hkind : field.Typ.Kind = Kind.String)
    (hskip : field.Tag.Lookup "dbskip" = none)
    (hcol : field.Tag.Lookup "column" = some col) (hcol0 : col ≠ "")
    (htype : field.Tag.Lookup "datatype" = some "uuid.UUID")
    (hpk : field.Tag.Lookup "primaryKey" = some pk) (hpk0 : pk ≠ "") :
    Contains (renderField field) "varchar(35)" ∧
      HasSuffix (renderField field) " PRIMARY KEY" := by
  obtain ⟨h1, h2, h3⟩ := descriptor_uuid field col pk hkind hskip hcol htype hpk
  have hc : (regularLogic.column field).ColumnString ≠ "" := by rw [h1]; exact hcol0
  have hp : (regularLogic.column field).PrimaryKey ≠ "" := by rw [h3]; exact hpk0
  unfold renderField
  rw [render_varchar35 _ hc h2, if_pos hp]
  constructor
  · exact contains_mid_tail _ " " "varchar(35)" _
  · rw [← String.append_assoc]
    exact hasSuffix_append _ _

/-- Instance of C3 at the field `ID` of `Model`. -/
theorem C3_identifier_primary_key_witness :
    Contains (renderField Model.ID) "varchar(35)" ∧
      HasSuffix (renderField Model.ID) " PRIMARY KEY" :=
  C3_identifier_primary_key Model.ID "id" "true" (by decide) (by decide) (by decide)
    (by decide) (by decide) (by decide) (by decide)

/-- C3 as stated fails: a text field with the identifier datatype, a `column`
annotation and a `primaryKey` annotation renders no ` PRIMARY KEY` suffix when
the `primaryKey` value is empty, and renders nothing at all when the `column`
value is empty or when the field is also tagged `dbskip`. -/
theorem C3_counterexample :
    (identifierKeyField emptyPrimaryKeyField ∧
      renderField emptyPrimaryKeyField = "    id varchar(35)" ∧
      ¬ HasSuffix (renderField emptyPrimaryKeyField) " PRIMARY KEY") ∧
    (identifierKeyField emptyColumnField ∧ renderField emptyColumnField = "" ∧
      ¬ Contains (renderField emptyColumnField) "varchar(35)") ∧
    (identifierKeyField skippedKeyField ∧ renderField skippedKeyField = "" ∧
      ¬ Contains (renderField skippedKeyField) "varchar(35)") := by
  decide

/-- The shape of every rendered definition: column name, type keyword, then
` NOT NULL` when the nullability string is not empty, ` DEFAULT <expr>` when the
default is not empty, and ` PRIMARY KEY` when the type is the identifier type
and the primary-key string is not empty. -/
theorem render_shape (c : Column) (hc : c.ColumnString ≠ "") (ht : c.TypeString ≠ "") :
    c.GenerateSQL.SQLDefinition = "    " ++ c.ColumnString ++ typeKeyword c.TypeString ++
      ((if c.NullString ≠ "" then " NOT NULL" else "") ++
      (if c.DefaultString ≠ "" then " DEFAULT " ++ c.DefaultString else "") ++
      (if (c.TypeString = "varchar(35)" ∨ c.TypeString = "uuid.UUID") ∧ c.PrimaryKey ≠ ""
        then " PRIMARY KEY" else "")) := by
  simp only [Column.GenerateSQL, if_pos hc, if_pos ht, typeKeyword]
  split_ifs <;> simp_all [-String.reduceAppend, String.append_assoc]

/-- A rendered definition with a non-empty nullability string contains
`NOT NULL`. -/
theorem render_contains_not_null (c : Column) (hc : c.ColumnString ≠ "")
    (ht : c.TypeString ≠ "") (hn : c.NullString ≠ "") :
    Contains c.GenerateSQL.SQLDefinition "NOT NULL" := by
  rw [render_shape c hc ht, if_pos hn, String.append_assoc " NOT NULL",
    ← String.append_assoc _ " NOT NULL"]
  exact contains_mid_tail _ " " "NOT NULL" _

/-- A descriptor without a column name renders nothing. -/
theorem render_no_column (c : Column) (hc : c.ColumnString = "") : c.GenerateSQL = c := by
  simp [Column.GenerateSQL, hc]

/-- A descriptor without a type renders its column name only. -/
theorem render_no_type (c : Column) (hc : c.ColumnString ≠ "") (ht : c.TypeString = "") :
    c.GenerateSQL.SQLDefinition = "    " ++ c.ColumnString := by
  simp [Column.GenerateSQL, hc, ht]

/-- The rendered definition depends on the nullability string only through its
being empty or not. -/
theorem render_null_irrelevant (c : Column) (n₁ n₂ : String) (h : n₁ = "" ↔ n₂ = "") :
    ({ c with NullString := n₁ } : Column).GenerateSQL.SQLDefinition =
      ({ c with NullString := n₂ } : Column).GenerateSQL.SQLDefinition := by
  by_cases hc : c.ColumnString = ""
  · rw [render_no_column _ (by exact hc), render_no_column _ (by exact hc)]
  · by_cases ht : c.TypeString = ""
    · rw [render_no_type _ (by exact hc) (by exact ht),
        render_no_type _ (by exact hc) (by exact ht)]
    · rw [render_shape _ (by exact hc) (by exact ht), render_shape _ (by exact hc) (by exact ht)]
      by_cases h1 : n₁ = ""
      · have h2 : n₂ = "" := h.mp h1
        subst h1; subst h2; rfl
      · have h2 : n₂ ≠ "" := fun e => h1 (h.mpr e)
        simp only [ne_eq, h1, h2, not_false_eq_true, if_true]

/-- The descriptors of two fields that differ in the `null` annotation only,
`"true"` against `"false"`, differ in the nullability string only, and it is
empty in both or in none. -/
theorem descriptor_null (name : String) (typ : RType) (tag₁ tag₂ : StructTag)
    (hk : ∀ k : String, k ≠ "null" → tag₁.Lookup k = tag₂.Lookup k)
    (h₁ : tag₁.Lookup "null" = some "true") (h₂ : tag₂.Lookup "null" = some "false") :
    regularLogic.column (.mk name typ tag₁) =
      { regularLogic.column (.mk name typ tag₂) with
        NullString := (regularLogic.column (.mk name typ tag₁)).NullString } ∧
    ((regularLogic.column (.mk name typ tag₁)).NullString = "" ↔
      (regularLogic.column (.mk name typ tag₂)).NullString = "") := by
  have e1 := hk "dbskip" (by decide)
  have e2 := hk "column" (by decide)
  have e3 := hk "datatype" (by decide)
  have e4 := hk "primaryKey" (by decide)
  have e5 := hk "foreignKey" (by decide)
  have e6 := hk "references" (by decide)
  have e7 := hk "default" (by decide)
  have e8 := hk "join" (by decide)
  have e9 := hk "tableName" (by decide)
  simp only [regularLogic.column, StructField.Tag, StructField.Typ, StructField.Name, e1, e2, e3,
    e4, e5, e6, e7, e8, e9, h₁, h₂]
  generalize tag₂.Lookup "dbskip" = a1
  generalize tag₂.Lookup "column" = a2
  generalize tag₂.Lookup "datatype" = a3
  cases a1 <;> cases a2 <;> try (constructor <;> rfl)
  cases hkind : typ.Kind <;> simp [nullTrueFalse, ifOk]
  · split_ifs <;> simp
  · cases a3 <;> simp
    split_ifs <;> simp

/-- Two fields that differ in the `null` annotation only, `"true"` against
`"false"`, render the same definition, whatever their kind. -/
theorem render_null_true_eq_false (name : String) (typ : RType) (tag₁ tag₂ : StructTag)
    (hk : ∀ k : String, k ≠ "null" → tag₁.Lookup k = tag₂.Lookup k)
    (h₁ : tag₁.Lookup "null" = some "true") (h₂ : tag₂.Lookup "null" = some "false") :
    renderField (.mk name typ tag₁) = renderField (.mk name typ tag₂) := by
  obtain ⟨h, hn⟩ := descriptor_null name typ tag₁ tag₂ hk h₁ h₂
  unfold renderField
  rw [h]
  exact render_null_irrelevant _ _ _ hn

/-- For a text field, an integer field or a pointer-to-record field with a
non-empty column name and a resolved type, a `null` annotation of `"true"` or
`"false"` gives a descriptor with a column name, a type and a nullability
string. -/
theorem descriptor_null_recorded (field : StructField) (col v : String)
    (hskip : field.Tag.Lookup "dbskip" = none)
    (hcol : field.Tag.Lookup "column" = some col) (hcol0 : col ≠ "")
    (hdt : field.Tag.Lookup "datatype" ≠ some "")
    (hnull : field.Tag.Lookup "null" = some v) (hv : v = "true" ∨ v = "false")
    (hkind : recordsNull field.Typ = true) :
    (regularLogic.column field).ColumnString ≠ "" ∧
    (regularLogic.column field).TypeString ≠ "" ∧
    (regularLogic.column field).NullString ≠ "" := by
  unfold recordsNull at hkind
  simp only [regularLogic.column, hskip, hcol, hnull]
  generalize field.Tag.Lookup "datatype" = dt at hdt
  rcases hv with hv | hv <;> subst hv <;>
    cases hk : field.Typ.Kind <;> simp [hk] at hkind <;>
    cases dt <;> simp [nullTrueFalse, ifOk, hcol0, hkind] <;>
    simp_all <;> split_ifs <;> simp_all

/-- For a text field, an integer field or a pointer-to-record field with a
non-empty column name and a resolved type, a `null` annotation of `"true"` or
`"false"` renders `NOT NULL`. -/
theorem render_null_recorded (field : StructField) (col v : String)
    (hskip : field.Tag.Lookup "dbskip" = none)
    (hcol : field.Tag.Lookup "column" = some col) (hcol0 : col ≠ "")
    (hdt : field.Tag.Lookup "datatype" ≠ some "")
    (hnull : field.Tag.Lookup "null" = some v) (hv : v = "true" ∨ v = "false")
    (hkind : recordsNull field.Typ = true) :
    Contains (renderField field) "NOT NULL" := by
  obtain ⟨h1, h2, h3⟩ :=
    descriptor_null_recorded field col v hskip hcol hcol0 hdt hnull hv hkind
  exact render_contains_not_null _ h1 h2 h3

/-- C4 fails on the code: for a boolean field and for a floating-point field
with `null:"false"`, `regularLogic` leaves the nullability string empty and the
rendered definition has no `NOT NULL`; an integer field with the same
annotation has it. -/
theorem C4_null_dropped_for_bool_and_float :
    ((regularLogic.column boolNullField).NullString = "" ∧
      renderField boolNullField = "    active varchar(255)" ∧
      ¬ Contains (renderField boolNullField) "NOT NULL") ∧
    ((regularLogic.column floatNullField).NullString = "" ∧
      renderField floatNullField = "    price varchar(255)" ∧
      ¬ Contains (renderField floatNullField) "NOT NULL") ∧
    ((regularLogic.column intNullField).NullString = "not null" ∧
      renderField intNullField = "    count varchar(255) NOT NULL") := by
  decide

/-- The column name and the resolved type of the descriptor of a text field. -/
theorem descriptor_text (field : StructField) (col : String)
    (hkind : field.Typ.Kind = Kind.String)
    (hskip : field.Tag.Lookup "dbskip" = none)
    (hcol : field.Tag.Lookup "column" = some col) :
    (regularLogic.column field).ColumnString = col ∧
    (regularLogic.column field).TypeString =
      (match field.Tag.Lookup "datatype" with
        | none => "varchar(255)"
        | some d =>
          if d = "uuid.UUID" then "varchar(35)"
          else if d = "time.TIME" then "datetime" else d) := by
  simp only [regularLogic.column, hskip, hcol, hkind]
  cases field.Tag.Lookup "datatype" <;> simp
  split_ifs <;> simp

/-- A descriptor with a column name and the non-empty type `t` renders the
column name followed by the keyword of `t`. -/
theorem render_keyword (c : Column) (t : String) (hc : c.ColumnString ≠ "")
    (ht : c.TypeString = t) (ht0 : t ≠ "") :
    ∃ rest, c.GenerateSQL.SQLDefinition = "    " ++ c.ColumnString ++ typeKeyword t ++ rest := by
  subst ht
  exact ⟨_, render_shape c hc ht0⟩

/-- The type keyword rendered for a text field with a non-empty column name: it
is `varchar(255)` without a datatype annotation, `varchar(35)` with the
identifier datatype and `DATETIME` with the timestamp datatype. -/
theorem render_text_keyword (field : StructField) (col : String)
    (hkind : field.Typ.Kind = Kind.String)
    (hskip : field.Tag.Lookup "dbskip" = none)
    (hcol : field.Tag.Lookup "column" = some col) (hcol0 : col ≠ "") :
    (field.Tag.Lookup "datatype" = none →
      ∃ rest, renderField field = "    " ++ col ++ " varchar(255)" ++ rest) ∧
    (field.Tag.Lookup "datatype" = some "uuid.UUID" →
      ∃ rest, renderField field = "    " ++ col ++ " varchar(35)" ++ rest) ∧
    (field.Tag.Lookup "datatype" = some "time.TIME" →
      ∃ rest, renderField field = "    " ++ col ++ " DATETIME" ++ rest) := by
  obtain ⟨h1, h2⟩ := descriptor_text field col hkind hskip hcol
  have hc : (regularLogic.column field).ColumnString ≠ "" := by rw [h1]; exact hcol0
  refine ⟨fun hd => ?_, fun hd => ?_, fun hd => ?_⟩
  · rw [hd] at h2
    have h := render_keyword _ "varchar(255)" hc h2 (by decide)
    rw [h1] at h
    exact h
  · rw [hd] at h2
    have h := render_keyword _ "varchar(35)" hc h2 (by decide)
    rw [h1] at h
    exact h
  · rw [hd] at h2
    have h := render_keyword _ "datetime" hc h2 (by decide)
    rw [h1] at h
    exact h

/-- C7 fails on the code: without a datatype annotation `regularLogic` resolves
a boolean field to `tinyint(1)`, a floating-point field to `float(8,2)` and an
integer field to `integer`, none of which is a case of the `switch` of
`Column.GenerateSQL`, so each is rendered with the keyword `varchar(255)`. -/
theorem C7_bool_float_int_render_varchar255 :
    ((regularLogic.column boolField).TypeString = "tinyint(1)" ∧
      renderField boolField = "    active varchar(255)" ∧
      ¬ Contains (renderField boolField) "TINYINT(1)") ∧
    ((regularLogic.column floatField).TypeString = "float(8,2)" ∧
      renderField floatField = "    price varchar(255)" ∧
      ¬ Contains (renderField floatField) "FLOAT") ∧
    ((regularLogic.column intField).TypeString = "integer" ∧
      renderField intField = "    count varchar(255)" ∧
      ¬ Contains (renderField intField) "INT") := by
  decide

/-- C8 fails on the code: the variable `tableName` of `CreateTables` is never
reset, so the join table of the field `Tags`, which has no `tableName`
annotation, takes the name computed for the field `Products` processed before
it, `order__product`, and not `CamelToSnake "Order_Tag"`; processed alone it
gets that name. -/
theorem C8_join_table_name_carried_over :
    joinStatements [Order] = some
      ["CREATE TABLE IF NOT EXISTS order__product (order_id varchar(35) not null, " ++
          "product_id varchar(35) not null)",
        "CREATE TABLE IF NOT EXISTS order__product (order_id varchar(35) not null, " ++
          "tag_id varchar(35) not null)"] ∧
    CamelToSnake "Order_Tag" = "order__tag" ∧
    joinStatements [OrderTagsOnly] = some
      ["CREATE TABLE IF NOT EXISTS order__tag (order_id varchar(35) not null, " ++
          "tag_id varchar(35) not null)"] := by
  decide

/-! ### Lemmas on the parsing of join annotations -/

theorem splitRunes_no_sep (sep : Char) (a : List Char) (h : sep ∉ a) :
    splitRunes sep a = [a] := by
  induction a with
  | nil => rfl
  | cons c cs ih =>
    have hc : c ≠ sep := fun e => h (e ▸ List.mem_cons_self _ _)
    have hcs : sep ∉ cs := fun m => h (List.mem_cons_of_mem _ m)
    simp [splitRunes, hc, ih hcs]

theorem splitRunes_append (sep : Char) (a b : List Char) (h : sep ∉ a) :
    splitRunes sep (a ++ sep :: b) = a :: splitRunes sep b := by
  induction a with
  | nil => simp [splitRunes]
  | cons c cs ih =>
    have hc : c ≠ sep := fun e => h (e ▸ List.mem_cons_self _ _)
    have hcs : sep ∉ cs := fun m => h (List.mem_cons_of_mem _ m)
    simp [splitRunes, hc, ih hcs]

/-- Splitting `a:b` at the colon, for `a` and `b` without a colon. -/
theorem Split_pair (a b : String) (ha : ':' ∉ a.data) (hb : ':' ∉ b.data) :
    Split (a ++ ":" ++ b) ':' = [a, b] := by
  have h : (a ++ ":" ++ b).data = a.data ++ ':' :: b.data := by
    simp [data_append]
  simp [Split, h, splitRunes_append _ _ _ ha, splitRunes_no_sep _ _ hb]

/-- Splitting a join annotation `T1:k1,T2:k2` at the comma. -/
theorem Split_join (T1 k1 T2 k2 : String) (h1 : separatorFree T1) (h2 : separatorFree k1)
    (h3 : separatorFree T2) (h4 : separatorFree k2) :
    Split (T1 ++ ":" ++ k1 ++ "," ++ T2 ++ ":" ++ k2) ',' = [T1 ++ ":" ++ k1, T2 ++ ":" ++ k2] := by
  have h : (T1 ++ ":" ++ k1 ++ "," ++ T2 ++ ":" ++ k2).data =
      (T1 ++ ":" ++ k1).data ++ ',' :: (T2 ++ ":" ++ k2).data := by
    simp [data_append]
  have ha : ',' ∉ (T1 ++ ":" ++ k1).data := by
    simp [data_append, h1.1, h2.1]
  have hb : ',' ∉ (T2 ++ ":" ++ k2).data := by
    simp [data_append, h3.1, h4.1]
  unfold Split
  rw [h, splitRunes_append _ _ _ ha, splitRunes_no_sep _ _ hb]
  rfl

theorem join_ne_empty (T1 k1 T2 k2 : String) :
    T1 ++ ":" ++ k1 ++ "," ++ T2 ++ ":" ++ k2 ≠ "" := by
  intro h
  have := congrArg String.data h
  simp [data_append] at this

/-- The step of the synthesis on a descriptor with a column name, a join
annotation of the shape `T1:k1,T2:k2` and no reference target. -/
theorem step_join (key : String) (st : Synthesis) (columns : List String) (attr : Column)
    (T1 k1 T2 k2 : String)
    (h1 : separatorFree T1) (h2 : separatorFree k1) (h3 : separatorFree T2)
    (h4 : separatorFree k2) (hcol : attr.ColumnString ≠ "")
    (hjoin : attr.JoinString = T1 ++ ":" ++ k1 ++ "," ++ T2 ++ ":" ++ k2)
    (href : attr.ReferenceString = "") :
    CreateTables.step key st columns attr = some
      ({ st with
          tableName := joinTableName st attr T1 T2
          joins := st.joins ++
            [{ FirstTable := T1, FirstKey := k1, SecondTable := T2, SecondKey := k2
               SQL := "CREATE TABLE IF NOT EXISTS " ++ joinTableName st attr T1 T2 ++ " (" ++
                 k1 ++ " varchar(35) not null, " ++ k2 ++ " varchar(35) not null)" }]
          alters := st.alters ++
            [Alters.GenerateSQL
                { Table := joinTableName st attr T1 T2, Reference := T1, ForeignKey := k1 }
                (joinTableName st attr T1 T2),
              Alters.GenerateSQL
                { Table := joinTableName st attr T1 T2, Reference := T2, ForeignKey := k2 }
                (joinTableName st attr T1 T2)] },
        columns) := by
  have hj : attr.JoinString ≠ "" := by rw [hjoin]; exact join_ne_empty T1 k1 T2 k2
  simp only [CreateTables.step, hjoin, Split_join T1 k1 T2 k2 h1 h2 h3 h4,
    Split_pair T1 k1 h1.2 h2.2, Split_pair T2 k2 h3.2 h4.2, href]
  rw [← hjoin]
  simp [-String.reduceAppend, hcol, hj, joinTableName, Split_pair T1 k1 h1.2 h2.2,
    Split_pair T2 k2 h3.2 h4.2]
  by_cases ha : attr.TableName = "" <;> by_cases hs : st.tableName = "" <;> simp [ha, hs]

@[simp] theorem nullTrueFalse_JoinString (n : Option String) (c : Column) :
    (nullTrueFalse n c).JoinString = c.JoinString := by
  unfold nullTrueFalse; split_ifs <;> rfl

@[simp] theorem nullTrueFalse_ReferenceString (n : Option String) (c : Column) :
    (nullTrueFalse n c).ReferenceString = c.ReferenceString := by
  unfold nullTrueFalse; split_ifs <;> rfl

/-- A descriptor built by `regularLogic` never has both a join annotation and a
reference target: the join is recorded for array and slice fields (or pointers
to them) only, the reference for identifier text fields and pointers to records
only. -/
theorem join_excludes_reference (field : StructField)
    (hjoin : (regularLogic.column field).JoinString ≠ "") :
    (regularLogic.column field).ReferenceString = "" := by
  revert hjoin
  simp only [regularLogic.column]
  cases field.Tag.Lookup "dbskip" <;> cases field.Tag.Lookup "column" <;>
    try (intro h; exact absurd rfl h)
  cases hk : field.Typ.Kind <;> simp [ifOk]
  · by_cases he : field.Typ.Elem.Kind = Kind.Struct <;> simp [he]
    intro _
    split_ifs <;> rfl
  · cases field.Tag.Lookup "datatype" <;> simp
    split_ifs <;> simp

/-- C9: for every descriptor built by `regularLogic` that has a column name and
a join annotation `T1:k1,T2:k2` (four texts without `,` and `:`), the synthesis
step appends exactly one `JoinTable`, with statement
`CREATE TABLE IF NOT EXISTS <join> (k1 varchar(35) not null, k2 varchar(35) not null)`,
and exactly two `Alters`, the first with reference `T1` and foreign key `k1`,
the second with reference `T2` and foreign key `k2`, both with table `<join>`;
the list of column lines of the owning table is unchanged. -/
theorem C9_join_descriptor (key : String) (st : Synthesis) (columns : List String)
    (field : StructField) (T1 k1 T2 k2 : String)
    (h1 : separatorFree T1) (h2 : separatorFree k1) (h3 : separatorFree T2)
    (h4 : separatorFree k2)
    (hcol : (regularLogic.column field).ColumnString ≠ "")
    (hjoin : (regularLogic.column field).JoinString =
      T1 ++ ":" ++ k1 ++ "," ++ T2 ++ ":" ++ k2) :
    CreateTables.step key st columns (regularLogic.column field) = some
      ({ st with
          tableName := joinTableName st (regularLogic.column field) T1 T2
          joins := st.joins ++
            [{ FirstTable := T1, FirstKey := k1, SecondTable := T2, SecondKey := k2
               SQL := "CREATE TABLE IF NOT EXISTS " ++
                 joinTableName st (regularLogic.column field) T1 T2 ++ " (" ++
                 k1 ++ " varchar(35) not null, " ++ k2 ++ " varchar(35) not null)" }]
          alters := st.alters ++
            [Alters.GenerateSQL
                { Table := joinTableName st (regularLogic.column field) T1 T2,
                  Reference := T1, ForeignKey := k1 }
                (joinTableName st (regularLogic.column field) T1 T2),
              Alters.GenerateSQL
                { Table := joinTableName st (regularLogic.column field) T1 T2,
                  Reference := T2, ForeignKey := k2 }
                (joinTableName st (regularLogic.column field) T1 T2)] },
        columns) := by
  have hj : (regularLogic.column field).JoinString ≠ "" := by
    rw [hjoin]; exact join_ne_empty T1 k1 T2 k2
  exact step_join key st columns _ T1 k1 T2 k2 h1 h2 h3 h4 hcol hjoin
    (join_excludes_reference field hj)

/-- Instance of C9 at the field `Products` of `Order`, first descriptor with a
join of a run: one join table `order__product` and two alter statements. -/
theorem C9_join_descriptor_witness :
    CreateTables.step "Order" {} [] (regularLogic.column Order.Products) = some
      ({ tableName := "order__product"
         joins :=
            [{ FirstTable := "Order", FirstKey := "order_id", SecondTable := "Product",
               SecondKey := "product_id"
               SQL := "CREATE TABLE IF NOT EXISTS order__product (order_id varchar(35) " ++
                 "not null, product_id varchar(35) not null)" }]
         alters :=
            [Alters.GenerateSQL
                { Table := "order__product", Reference := "Order", ForeignKey := "order_id" }
                "order__product",
              Alters.GenerateSQL
                { Table := "order__product", Reference := "Product",
                  ForeignKey := "product_id" }
                "order__product"] },
        []) :=
  C9_join_descriptor "Order" {} [] Order.Products "Order" "order_id" "Product" "product_id"
    (by decide) (by decide) (by decide) (by decide) (by decide) (by decide)

/-! ### Lemmas on the walk of a record type -/

/-- The loop over a concatenation of field lists is the loop over the second
list from the map left by the loop over the first. -/
theorem loop_append (pre post : List StructField) (key : String) :
    ∀ columns : SchemaMap,
      processTypeForColumns.loop (pre ++ post) columns key =
        processTypeForColumns.loop post (processTypeForColumns.loop pre columns key) key := by
  induction pre with
  | nil => intro columns; simp [processTypeForColumns.loop]
  | cons f fs ih =>
    intro columns
    simp only [List.cons_append, processTypeForColumns.loop]
    split_ifs
    · exact ih _
    · exact ih _

/-- A field tagged `dbskip` leaves the map as it is. -/
theorem loop_skip (field : StructField) (post : List StructField) (columns : SchemaMap)
    (key : String) (hskip : (field.Tag.Lookup "dbskip").isSome = true) :
    processTypeForColumns.loop (field :: post) columns key =
      processTypeForColumns.loop post columns key := by
  simp [processTypeForColumns.loop, hskip]

/-- The walk of a record type does not see a field tagged `dbskip`. -/
theorem processTypeForColumns_skip (name : String) (pre post : List StructField)
    (field : StructField) (columns : SchemaMap) (key : String)
    (hskip : (field.Tag.Lookup "dbskip").isSome = true) :
    processTypeForColumns (.struct name (pre ++ field :: post)) columns key =
      processTypeForColumns (.struct name (pre ++ post)) columns key := by
  simp only [processTypeForColumns, loop_append, loop_skip field post _ key hskip]

/-- C10: for every record type and every field of it tagged `dbskip`, whatever
its other annotations, the map built by `processTypeForColumns` (from any map,
under any key) and the output of the synthesis of `CreateTables` (column lines
and `CREATE TABLE` statements, join tables, alter statements) on any list of
registered types holding the record are those of the record without the field:
nothing is emitted for it. -/
theorem C10_dbskip_emits_nothing (name : String) (pre post : List StructField)
    (field : StructField) (hskip : (field.Tag.Lookup "dbskip").isSome = true) :
    (∀ (columns : SchemaMap) (key : String),
      processTypeForColumns (.struct name (pre ++ field :: post)) columns key =
        processTypeForColumns (.struct name (pre ++ post)) columns key) ∧
    (∀ before after : List RType,
      CreateTables.synthesis
          (readAnnotations (before ++ .struct name (pre ++ field :: post) :: after)) =
        CreateTables.synthesis
          (readAnnotations (before ++ .struct name (pre ++ post) :: after))) := by
  have h := fun columns key =>
    processTypeForColumns_skip name pre post field columns key hskip
  refine ⟨h, fun before after => ?_⟩
  simp [readAnnotations, h, RType.Kind, RType.Name]

/-- Instance of C10 at a record with an identifier, a skipped join field and a
join field: the schema is that of the record without the skipped field, one
table, one join table and two alter statements. -/
theorem C10_dbskip_emits_nothing_witness :
    (skippedJoinField.Tag.Lookup "dbskip").isSome = true ∧
    CreateTables.synthesis (readAnnotations
        ([] ++ .struct "Order" ([Model.ID] ++ skippedJoinField :: [Order.Products]) :: [])) =
      CreateTables.synthesis (readAnnotations
        ([] ++ .struct "Order" ([Model.ID] ++ [Order.Products]) :: [])) ∧
    schemaSize [.struct "Order" ([Model.ID] ++ [Order.Products])] = some (1, 1, 2) :=
  ⟨by decide,
    (C10_dbskip_emits_nothing "Order" [Model.ID] [Order.Products] skippedJoinField
      (by decide)).2 [] [],
    by decide⟩

/-! ### Lemmas on the persister -/

/-- The helpers of the source never all succeed on one entity: `GetColumns` and
`GetPlaceholders` need a struct, `GetValues` needs a pointer. -/
theorem helpers_disagree (w : World) (ent : Ent) :
    w.helpers.GetPlaceholders ent = none ∨ w.helpers.GetValues ent = none := by
  by_cases hk : (w.TypeOf ent).Kind = Kind.Struct
  · right
    simp [World.helpers, GetValues, hk]
  · left
    simp [World.helpers, GetPlaceholders, RType.NumField, hk]

/-- The helpers `GetColumns` and `GetPlaceholders` of the source succeed on the
same entities. -/
theorem helpers_columns (w : World) (ent : Ent) :
    w.helpers.GetColumns ent = none ↔ w.helpers.GetPlaceholders ent = none := by
  by_cases hk : (w.TypeOf ent).Kind = Kind.Struct <;>
    simp [World.helpers, GetColumns, GetPlaceholders, RType.NumField, hk]

/-- The method `Save` of the source panics before it issues a statement, on every
entity. -/
theorem Save_panics (w : World) (fuel : Nat) (ent : Ent) (log : List Stmt) :
    Repository.Save w (fuel + 1) ent log = .panicked log := by
  simp only [Repository.Save, Repository.SaveWith, bind, Exec.bind]
  cases hc : w.helpers.GetColumns ent with
  | none => simp [Exec.ofOption]
  | some cols =>
    cases hp : w.helpers.GetPlaceholders ent with
    | none => exact absurd ((helpers_columns w ent).mpr hp) (by simp [hc])
    | some ph =>
      have hv : w.helpers.GetValues ent = none := by
        rcases helpers_disagree w ent with h | h
        · simp [hp] at h
        · exact h
      simp [Exec.ofOption, hv, pure]

/-- The method `SaveAll` of the source panics before it issues a statement, on every
non-empty list of entities. -/
theorem SaveAll_panics (w : World) (fuel : Nat) (v : Ent) (rest : List Ent)
    (log : List Stmt) :
    Repository.SaveAll w (fuel + 1) (v :: rest) log = .panicked log := by
  simp only [Repository.SaveAll, Repository.SaveAllWith, Repository.SaveAll.loop, bind,
    Exec.bind]
  cases hp : w.helpers.GetPlaceholders v with
  | none => simp [Exec.ofOption]
  | some ph =>
    have hv : w.helpers.GetValues v = none := by
      rcases helpers_disagree w v with h | h
      · simp [hp] at h
      · exact h
    simp [Exec.ofOption, hv, pure]

/-- The method `SaveChildren` of the source panics before it issues a
statement, on every non-empty list of children. -/
theorem SaveChildren_panics (w : World) (fuel : Nat) (parent s : Ent) (rest save : List Ent)
    (log : List Stmt) :
    Repository.SaveChildren w (fuel + 2) parent (s :: rest) save log = .panicked log := by
  have hs := Save_panics w fuel s log
  simp only [Repository.Save] at hs
  simp only [Repository.SaveChildren, Repository.SaveChildrenWith,
    Repository.SaveChildren.loop, bind, Exec.bind, hs]

/-- C5 fails on the code.  On a parent with two leaf children whose joins are
entities, the claim has `SaveAll` issue five inserts.  `SaveAll` of the source
issues none: it panics in the row helpers before the first insert, for every
bound on the depth, with the entities passed by value (`GetValues` panics) and
with the entities passed by pointer (`GetPlaceholders` panics). -/
theorem C5_saveAll_issues_no_insert :
    (∀ fuel : Nat, Repository.SaveAll family (fuel + 1) [0] [] = .panicked []) ∧
    (∀ fuel : Nat, Repository.SaveAll familyByPointer (fuel + 1) [0] [] = .panicked []) ∧
    (GetPlaceholders (family.TypeOf 0) = some ["?"] ∧ GetValues family 0 = none) ∧
    GetPlaceholders (familyByPointer.TypeOf 0) = none :=
  ⟨fun fuel => SaveAll_panics family fuel 0 [] [],
    fun fuel => SaveAll_panics familyByPointer fuel 0 [] [], by decide, by decide⟩

/-! ### Lemmas on alter statements -/

/-- The step of the synthesis on a descriptor with a reference target and no
join annotation: one alter statement is appended, on the table named by the
override, the carried name or the key. -/
theorem step_reference (key : String) (st : Synthesis) (columns : List String) (attr : Column)
    (hjoin : attr.JoinString = "") (href : attr.ReferenceString ≠ "") :
    ∃ lines, CreateTables.step key st columns attr = some
      ({ st with
          tableName := referenceTableName st attr key
          alters := st.alters ++
            [Alters.GenerateSQL
              { Table := referenceTableName st attr key, Reference := attr.ReferenceString,
                Key := attr.ColumnString, ForeignKey := attr.ForeignKey }
              (referenceTableName st attr key)] },
        lines) := by
  simp only [CreateTables.step, hjoin]
  simp [-String.reduceAppend, href, referenceTableName]
  by_cases ha : attr.TableName = "" <;> by_cases hs : st.tableName = "" <;>
    by_cases hf : attr.ForeignKey = "" <;> simp [ha, hs, hf]

/-- C11 fails on the code: the variable `tableName` of `CreateTables` is never
reset, so the alter statement of the record `Shipment`, whose descriptor has no
table-name override, is put on the table `invoice` of the record processed
before it and not on `CamelToSnake "Shipment"`; processed alone it is put on
`shipment`.  Key and reference are as claimed. -/
theorem C11_reference_table_carried_over :
    alterFields [Invoice, Shipment] = some
      [("invoice", "order_id", "", "order"), ("invoice", "order_id", "", "order")] ∧
    CamelToSnake "Shipment" = "shipment" ∧
    alterFields [Shipment] = some [("shipment", "order_id", "", "order")] := by
  decide

/-- The statement rendered by `Alters.GenerateSQL`, for every value and table
name: identifiers are quoted with backticks, and the column of the
`FOREIGN KEY` clause is the field `ForeignKey` of the value. -/
theorem Alters_GenerateSQL_statement (c : Alters) (tableName : String) :
    (c.GenerateSQL tableName).SQL =
      "ALTER TABLE `" ++ CamelToSnake tableName ++ "` ADD CONSTRAINT `" ++
      ("fk_" ++ CamelToSnake tableName ++ "_" ++ c.Reference) ++ "` FOREIGN KEY (`" ++
      c.ForeignKey ++ "`) REFERENCES `" ++ c.Reference ++ "` (`id`)" ∧
    (c.GenerateSQL tableName).Table = c.Table ∧ (c.GenerateSQL tableName).Key = c.Key ∧
    (c.GenerateSQL tableName).ForeignKey = c.ForeignKey ∧
    (c.GenerateSQL tableName).Reference = c.Reference :=
  ⟨rfl, rfl, rfl, rfl, rfl⟩

/-- C12 fails on the code: `Alters.GenerateSQL` prints the field `ForeignKey`
in the `FOREIGN KEY` clause and never reads the field `Key`.  For the reference
field of `Invoice`, whose local key is the column `order_id`, `CreateTables`
sets `Key` and leaves `ForeignKey` empty, so the clause names no column. -/
theorem C12_reference_alter_names_no_column :
    alterFields [Invoice] = some [("invoice", "order_id", "", "order")] ∧
    alterStatements [Invoice] = some
      ["ALTER TABLE `invoice` ADD CONSTRAINT `fk_invoice_order` FOREIGN KEY (``) " ++
        "REFERENCES `order` (`id`)"] ∧
    invoiceOrderAlter.Key = "order_id" ∧
    (invoiceOrderAlter.GenerateSQL "invoice").SQL =
      "ALTER TABLE `invoice` ADD CONSTRAINT `fk_invoice_order` FOREIGN KEY (``) " ++
        "REFERENCES `order` (`id`)" :=
  ⟨by decide, by decide, rfl, by decide⟩

/-! ### Claims on the resolved type and on the rendering -/

/-- C13, as amended: for every field that is not tagged `dbskip` and carries a
`column` annotation, `regularLogic` resolves the type of the descriptor by the
rule table: text with `uuid.UUID` gives `varchar(35)`, text with `time.TIME`
gives `datetime`, text without datatype gives `varchar(255)`, text with another
datatype gives it verbatim; the kinds `int`, `int8` to `int64`, `uint`, `uint8`
to `uint64` give the datatype or else `integer`; boolean gives the datatype or
else `tinyint(1)`; floating point gives the datatype or else `float(8,2)`;
pointer to record gives `varchar(35)`; array, slice and pointer to array or
slice give no type. -/
theorem C13_resolved_type (field : StructField) (col t : String)
    (hskip : field.Tag.Lookup "dbskip" = none)
    (hcol : field.Tag.Lookup "column" = some col)
    (hrule : ruleTable field = some t) :
    (regularLogic.column field).TypeString = t := by
  revert hrule
  simp only [regularLogic.column, ruleTable, hskip, hcol, isIntegerKind]
  cases hk : field.Typ.Kind <;> simp [ifOk] <;>
    cases field.Tag.Lookup "datatype" <;> (try simp) <;>
    (try split_ifs) <;> (try simp_all)

/-- Instance of C13 at the field `ID` of `Model`: the identifier datatype
resolves to `varchar(35)`. -/
theorem C13_resolved_type_witness :
    ruleTable Model.ID = some "varchar(35)" ∧
      (regularLogic.column Model.ID).TypeString = "varchar(35)" :=
  ⟨by decide, C13_resolved_type Model.ID "id" "varchar(35)" (by decide) (by decide) (by decide)⟩

/-- C13 as stated fails: a text field with a `column` annotation and the
identifier datatype that is also tagged `dbskip` gets the empty descriptor,
without type, where the rule table gives `varchar(35)`; and a field of the
integer kind `uintptr` with a `column` annotation gets no type, not
`integer`. -/
theorem C13_counterexample :
    ((skippedKeyField.Tag.Lookup "column").isSome ∧
      ruleTable skippedKeyField = some "varchar(35)" ∧
      (regularLogic.column skippedKeyField).TypeString = "") ∧
    ((uintptrField.Tag.Lookup "column").isSome ∧ uintptrField.Typ.Kind = Kind.Uintptr ∧
      (regularLogic.column uintptrField).TypeString = "") := by
  decide

/-- A descriptor built by `regularLogic` has a primary-key string only when its
type is the identifier type. -/
theorem primaryKey_implies_identifier (field : StructField)
    (hpk : (regularLogic.column field).PrimaryKey ≠ "") :
    (regularLogic.column field).TypeString = "varchar(35)" := by
  revert hpk
  simp only [regularLogic.column]
  cases field.Tag.Lookup "dbskip" <;> cases field.Tag.Lookup "column" <;>
    try (intro h; exact absurd rfl h)
  cases hk : field.Typ.Kind <;> simp [ifOk]
  · by_cases he : field.Typ.Elem.Kind = Kind.Struct <;> simp [he]
    split_ifs <;> simp
  · cases field.Tag.Lookup "datatype" <;> simp
    split_ifs <;> simp

/-- C14, as amended: for every descriptor with a non-empty column name and a
non-empty type, `Column.GenerateSQL` renders four blanks, the column name, the
type keyword, then ` NOT NULL` exactly when the nullability string is not
empty, then ` DEFAULT <expr>` exactly when the default is not empty, then
` PRIMARY KEY` exactly when the primary-key string is not empty and the type is
the identifier type (`varchar(35)` or `uuid.UUID`), and nothing else; for a
descriptor with an empty column name it changes nothing. -/
theorem C14_column_rendering (c : Column) :
    (c.ColumnString ≠ "" → c.TypeString ≠ "" →
      c.GenerateSQL.SQLDefinition = "    " ++ c.ColumnString ++ typeKeyword c.TypeString ++
        ((if c.NullString ≠ "" then " NOT NULL" else "") ++
        (if c.DefaultString ≠ "" then " DEFAULT " ++ c.DefaultString else "") ++
        (if (c.TypeString = "varchar(35)" ∨ c.TypeString = "uuid.UUID") ∧ c.PrimaryKey ≠ ""
          then " PRIMARY KEY" else ""))) ∧
    (c.ColumnString = "" → c.GenerateSQL = c) :=
  ⟨render_shape c, render_no_column c⟩

/-- Instance of C14 at the descriptor of the field `ID` of `Model` and at the
empty descriptor. -/
theorem C14_column_rendering_witness :
    (regularLogic.column Model.ID).GenerateSQL.SQLDefinition =
        "    id varchar(35) NOT NULL PRIMARY KEY" ∧
      ({} : Column).GenerateSQL = {} :=
  ⟨(C14_column_rendering (regularLogic.column Model.ID)).1 (by decide) (by decide),
    (C14_column_rendering {}).2 rfl⟩

/-- C14 as stated fails: a descriptor of type `int` with a non-empty column
name and a non-empty primary-key string is rendered without ` PRIMARY KEY`,
and with four blanks before the column name. -/
theorem C14_counterexample :
    intKeyColumn.ColumnString ≠ "" ∧ intKeyColumn.TypeString ≠ "" ∧
    intKeyColumn.PrimaryKey ≠ "" ∧
    intKeyColumn.GenerateSQL.SQLDefinition = "    n INT" ∧
    ¬ HasSuffix intKeyColumn.GenerateSQL.SQLDefinition " PRIMARY KEY" := by
  decide

/-! ### Lemmas on the statements of a key -/

theorem render_ne_empty (c : Column) (hc : c.ColumnString ≠ "") :
    c.GenerateSQL.SQLDefinition ≠ "" := by
  intro h
  have hd := congrArg String.data h
  by_cases ht : c.TypeString = ""
  · rw [render_no_type c hc ht] at hd
    simp [data_append] at hd
  · rw [render_shape c hc ht] at hd
    simp [data_append] at hd

theorem step_lines (key : String) (st : Synthesis) (columns : List String) (attr : Column)
    (r : Synthesis × List String) (h : CreateTables.step key st columns attr = some r) :
    r.1.tables = st.tables ∧
      r.2 = columns ++ (if rendersLine attr then [attr.GenerateSQL.SQLDefinition] else []) := by
  unfold CreateTables.step at h
  simp only [] at h
  split at h
  · exact absurd h (by simp)
  · rename_i st' hjoined
    have htab : st'.tables = st.tables := by
      split at hjoined
      · split at hjoined
        · split at hjoined
          · simp at hjoined; rw [← hjoined]
          · simp at hjoined
        · simp at hjoined
      · simp at hjoined; rw [← hjoined]
    simp only [Option.some.injEq] at h
    subst h
    constructor
    · simp only []
      split_ifs <;> simp [htab]
    · simp only [rendersLine]
      by_cases hr : attr.ColumnString ≠ "" ∧ attr.JoinString = "" ∧ attr.TypeString ≠ ""
      · simp [hr, render_ne_empty attr hr.1]
      · simp [hr]
/-- The step of the synthesis does not panic on a descriptor whose join
annotation, if it is parsed, has the parts that are indexed. -/
theorem step_total (key : String) (st : Synthesis) (columns : List String) (attr : Column)
    (hp : attr.ColumnString ≠ "" → attr.JoinString ≠ "" →
      joinParses attr.JoinString = true) :
    ∃ r, CreateTables.step key st columns attr = some r := by
  unfold CreateTables.step
  simp only []
  by_cases hj : attr.ColumnString ≠ "" ∧ attr.JoinString ≠ ""
  · have h := hp hj.1 hj.2
    unfold joinParses at h
    simp only [] at h
    rw [if_pos hj]
    split at h
    · rename_i first0 first1 h0 h1
      simp only [Bool.and_eq_true, Option.isSome_iff_exists] at h
      obtain ⟨⟨⟨⟨a, ha⟩, ⟨b, hb⟩⟩, ⟨c, hc⟩⟩, ⟨d, hd⟩⟩ := h
      simp only [List.get?_eq_getElem?] at h0 h1 ha hb hc hd ⊢
      simp [h0, h1, ha, hb, hc, hd]
    · exact absurd h (by simp)
  · rw [if_neg hj]
    simp

/-- The loop over the descriptors of a key, on a sequence whose join
annotations parse: it does not panic, leaves the `CREATE TABLE` statements as
they are and appends the column lines of the sequence. -/
theorem attributes_lines (key : String) (attrs : List Column) :
    ∀ (st : Synthesis) (columns : List String), joinsParse attrs →
      ∃ st', CreateTables.attributes key st columns attrs =
          some (st', columns ++ columnLines attrs) ∧
        st'.tables = st.tables := by
  induction attrs with
  | nil => intro st columns _; exact ⟨st, by simp [CreateTables.attributes, columnLines], rfl⟩
  | cons attr rest ih =>
    intro st columns hp
    have hhead := hp attr (List.mem_cons_self _ _)
    have hrest : joinsParse rest := fun a ha => hp a (List.mem_cons_of_mem _ ha)
    obtain ⟨r, hr⟩ := step_total key st columns attr hhead
    obtain ⟨h1, h2⟩ := step_lines key st columns attr r hr
    obtain ⟨st', hst', htab⟩ := ih r.1 r.2 hrest
    refine ⟨st', ?_, by rw [htab, h1]⟩
    simp only [CreateTables.attributes, hr]
    rw [hst', h2]
    by_cases hl : rendersLine attr = true
    · simp [columnLines, List.filter, hl]
    · simp [columnLines, List.filter, hl]
/-- The statement of a key whose join annotations parse: for every table key,
every state of the synthesis and every descriptor sequence whose join
annotations have the parts that `CreateTables` indexes, the synthesis of the key
completes and appends a `CREATE TABLE IF NOT EXISTS` statement if and only if at
least one descriptor renders a column line (non-empty column name, no join
annotation, non-empty type); the statement names the table `CamelToSnake(key)`
and holds exactly those lines, in the order of the sequence, joined by a comma
and a line break. -/
theorem key_statement (st : Synthesis) (key : String) (attrs : List Column)
    (hp : joinsParse attrs) :
    ∃ st', CreateTables.key st key attrs = some st' ∧
      st'.tables = st.tables ++
        (if columnLines attrs = [] then []
          else ["CREATE TABLE IF NOT EXISTS " ++ CamelToSnake key ++ " (\r\n" ++
            Join (columnLines attrs) ",\r\n" ++ "\r\n)\r\n"]) := by
  obtain ⟨st', hst', htab⟩ := attributes_lines key attrs st [] hp
  simp only [List.nil_append] at hst'
  simp only [CreateTables.key, hst']
  by_cases hl : columnLines attrs = []
  · exact ⟨st', by simp [hl], by simp [hl, htab]⟩
  · have hpos : (columnLines attrs).length > 0 := List.length_pos.mpr hl
    rw [if_pos hpos]
    exact ⟨_, rfl, by simp [hl, htab]⟩

/-- The statement of the key `Order` with an identifier descriptor and a join
descriptor: one statement with the one column line. -/
theorem key_statement_order :
    joinsParse orderDescriptors ∧
    ∃ st', CreateTables.key {} "Order" orderDescriptors = some st' ∧
      st'.tables = [] ++
        (if columnLines orderDescriptors = [] then []
          else ["CREATE TABLE IF NOT EXISTS " ++ CamelToSnake "Order" ++ " (\r\n" ++
            Join (columnLines orderDescriptors) ",\r\n" ++ "\r\n)\r\n"]) :=
  ⟨by decide, key_statement {} "Order" orderDescriptors (by decide)⟩

/-- C15 fails on the code.  The descriptors that extraction builds for the
record `CartNoComma` are the identifier, which renders the column line
`id varchar(35) PRIMARY KEY`, and the join field, whose annotation
`Cart:cart_id` has no comma.  The claim has the synthesis emit the
`CREATE TABLE` statement of the key `Cart` with that line; in the code the
parsing of the join annotation indexes `first[1]` out of range, and the synthesis
of the key panics, in every state, before the statement is built: no statement
is emitted.  The same record with the annotation `Cart:cart_id,Item:item_id`
gives the statement. -/
theorem C15_malformed_join_emits_no_statement :
    (processTypeForColumns CartNoComma [] "Cart").at "Cart" = cartDescriptors ∧
    columnLines cartDescriptors = ["    id varchar(35) PRIMARY KEY"] ∧
    (∀ st : Synthesis, CreateTables.key st "Cart" cartDescriptors = none) ∧
    createStatements [CartNoComma] = none ∧
    createStatements [CartJoined] =
      some ["CREATE TABLE IF NOT EXISTS cart (\r\n    id varchar(35) PRIMARY KEY\r\n)\r\n"] :=
  ⟨by decide, by decide, fun _ => rfl, by decide, by decide⟩

/-! ### Claims on faults in the synthesis and in the row helpers -/

/-- C16 fails on the code: a malformed join annotation is copied into the
descriptor by the extraction, which completes, and is parsed in `CreateTables`,
outside the `recover` of `processTypeForColumns`; the index out of range panics
there and the run yields no statement at all, also none for the well-formed
record `Product`, which alone yields its `CREATE TABLE` statement. -/
theorem C16_malformed_join_aborts_synthesis :
    (readAnnotations [Product, CartNoComma]).length = 3 ∧
    createStatements [Product, CartNoComma] = none ∧
    createStatements [CartNoComma, Product] = none ∧
    createStatements [Product, CartNoColon] = none ∧
    createStatements [Product] = some
      ["CREATE TABLE IF NOT EXISTS product (\r\n    id varchar(35) PRIMARY KEY,\r\n" ++
        "    name varchar(255)\r\n)\r\n"] := by
  decide

/-- C17 fails on the code: on a record passed by value `GetColumns` and
`GetPlaceholders` return one entry for the one persisted field, and `GetValues`
panics in `reflect.ValueOf(ent).Elem()`; on the same record passed by pointer
`GetColumns` and `GetPlaceholders` panic in `NumField` (and `GetValues` in
`t.Field(i)`); and on no entity at all do `GetColumns` and `GetValues` both
complete. -/
theorem C17_row_helpers_never_all_complete :
    (GetColumns (family.TypeOf 0) = some ["id"] ∧
      GetPlaceholders (family.TypeOf 0) = some ["?"] ∧ GetValues family 0 = none) ∧
    (GetColumns (familyByPointer.TypeOf 0) = none ∧
      GetPlaceholders (familyByPointer.TypeOf 0) = none ∧
      GetValues familyByPointer 0 = none) ∧
    (∀ (w : World) (ent : Ent), GetColumns (w.TypeOf ent) = none ∨ GetValues w ent = none) := by
  refine ⟨by decide, by decide, fun w ent => ?_⟩
  rcases helpers_disagree w ent with h | h
  · exact Or.inl ((helpers_columns w ent).mpr h)
  · exact Or.inr h

/-! ### Lemmas on the shared map -/

theorem at_appendAt_same (m : SchemaMap) (key : String) (c : Column) :
    (m.appendAt key c).at key = m.at key ++ [c] := by
  induction m with
  | nil => simp [SchemaMap.appendAt, SchemaMap.at]
  | cons e rest ih =>
    obtain ⟨k, v⟩ := e
    by_cases hk : k = key
    · simp [SchemaMap.appendAt, SchemaMap.at, hk]
    · simp [SchemaMap.appendAt, SchemaMap.at, hk, ih]

theorem at_appendAt_other (m : SchemaMap) (key k' : String) (c : Column) (h : k' ≠ key) :
    (m.appendAt key c).at k' = m.at k' := by
  induction m with
  | nil => simp [SchemaMap.appendAt, SchemaMap.at, Ne.symm h]
  | cons e rest ih =>
    obtain ⟨k, v⟩ := e
    by_cases hk : k = key
    · subst hk
      simp [SchemaMap.appendAt, SchemaMap.at, Ne.symm h]
    · by_cases hk' : k = k'
      · subst hk'
        simp [SchemaMap.appendAt, SchemaMap.at, hk]
      · simp [SchemaMap.appendAt, SchemaMap.at, hk, hk', ih]

/-- The step of `regularLogic` on a field that does not reach
`case reflect.Struct`: its descriptor is appended under the key. -/
theorem field_no_recursion (field : StructField) (columns : SchemaMap) (key : String)
    (h : regularLogic.recurses field = false) :
    regularLogic.field field columns key =
      SchemaMap.appendAt columns key (regularLogic.column field) := by
  cases field with
  | mk name typ tag => simp [regularLogic.field, h]

/-- The walk of a record without nested records appends the descriptors of its
fields under the key, in declaration order, and touches no other key. -/
theorem loop_flat (key : String) (fields : List StructField) :
    ∀ columns : SchemaMap, (∀ field ∈ fields, regularLogic.recurses field = false) →
      (processTypeForColumns.loop fields columns key).at key =
          columns.at key ++ ownDescriptors fields ∧
        ∀ k', k' ≠ key →
          (processTypeForColumns.loop fields columns key).at k' = columns.at k' := by
  induction fields with
  | nil => intro columns _; simp [processTypeForColumns.loop, ownDescriptors]
  | cons f fs ih =>
    intro columns h
    have hf := h f (List.mem_cons_self _ _)
    have hfs : ∀ field ∈ fs, regularLogic.recurses field = false :=
      fun g hg => h g (List.mem_cons_of_mem _ hg)
    by_cases hskip : (f.Tag.Lookup "dbskip").isSome = true
    · obtain ⟨h1, h2⟩ := ih columns hfs
      simp only [processTypeForColumns.loop, hskip, if_true]
      refine ⟨?_, h2⟩
      rw [h1]
      simp [ownDescriptors, List.filter, hskip]
    · obtain ⟨h1, h2⟩ := ih (regularLogic.field f columns key) hfs
      simp only [processTypeForColumns.loop, hskip]
      simp only [Bool.false_eq_true, if_false]
      refine ⟨?_, fun k' hk' => ?_⟩
      · rw [h1, field_no_recursion f columns key hf, at_appendAt_same]
        simp [ownDescriptors, List.filter, hskip]
      · rw [h2 k' hk', field_no_recursion f columns key hf, at_appendAt_other _ _ _ _ hk']

/-- C18, as amended: for every field of struct kind that is not tagged `dbskip`
and carries a `column` annotation, `regularLogic` walks the nested record into
the same shared map under the key equal to the name of the field (its type name
only for an embedded field), so that the descriptors of the fields of a nested
record without further nesting are appended there in declaration order, and
then appends the descriptor of the nested field itself under the current key;
that descriptor yields no column line, no join table and no alter statement in
the synthesis. -/
theorem C18_nested_record (field : StructField) (col : String)
    (hkind : field.Typ.Kind = Kind.Struct)
    (hskip : field.Tag.Lookup "dbskip" = none)
    (hcol : field.Tag.Lookup "column" = some col) :
    (∀ (columns : SchemaMap) (key : String),
      regularLogic.field field columns key =
        SchemaMap.appendAt (processTypeForColumns field.Typ columns field.Name) key
          (regularLogic.column field)) ∧
    (∀ columns : SchemaMap, (∀ f ∈ field.Typ.fields, regularLogic.recurses f = false) →
      (processTypeForColumns field.Typ columns field.Name).at field.Name =
        columns.at field.Name ++ ownDescriptors field.Typ.fields) ∧
    (∀ (key : String) (st : Synthesis) (lines : List String),
      ∃ tableName, CreateTables.step key st lines (regularLogic.column field) =
        some ({ st with tableName := tableName }, lines)) := by
  cases field with
  | mk name typ tag =>
    simp only [StructField.Typ, StructField.Tag, StructField.Name] at hkind hskip hcol ⊢
    have hrec : regularLogic.recurses (.mk name typ tag) = true := by
      simp [regularLogic.recurses, StructField.Typ, StructField.Tag, hkind, hskip, hcol]
    refine ⟨fun columns key => by simp [regularLogic.field, hrec], fun columns hflat => ?_,
      fun key st lines => ?_⟩
    · cases typ with
      | basic k n => simp [processTypeForColumns, RType.fields, ownDescriptors]
      | ptr e => simp [RType.Kind] at hkind
      | struct n fs =>
        simp only [processTypeForColumns, RType.fields] at hflat ⊢
        exact (loop_flat name fs columns hflat).1
    · have hd : regularLogic.column (.mk name typ tag) =
          { AttributeName := name, ColumnString := col,
            TableName := ifOk (tag.Lookup "tableName") "" } := by
        simp [regularLogic.column, StructField.Typ, StructField.Tag, StructField.Name, hkind,
          hskip, hcol]
      rw [hd]
      exact ⟨if ifOk (tag.Lookup "tableName") "" = "" then st.tableName
        else ifOk (tag.Lookup "tableName") "", by simp [CreateTables.step]⟩

/-- Instance of C18 at the field `Home` of `Customer`: the descriptor of
`Street` is put under the key `Home`, the descriptor of `Home` under
`Customer`. -/
theorem C18_nested_record_witness :
    (∀ (columns : SchemaMap) (key : String),
      regularLogic.field Customer.Home columns key =
        SchemaMap.appendAt (processTypeForColumns Customer.Home.Typ columns Customer.Home.Name)
          key (regularLogic.column Customer.Home)) ∧
    (regularLogic.field Customer.Home [] "Customer").at "Home" =
      [{ AttributeName := "Street", ColumnString := "street", TypeString := "varchar(255)" }] ∧
    (regularLogic.field Customer.Home [] "Customer").at "Customer" =
      [{ AttributeName := "Home", ColumnString := "home" }] :=
  ⟨(C18_nested_record Customer.Home "home" (by decide) (by decide) (by decide)).1,
    by decide, by decide⟩

/-- C18 as stated fails: the nested record of the field `Home`, of type
`Address`, is put under the key `Home`, the name of the field, and nothing is
put under the type name `Address`; its table is created as `home`. -/
theorem C18_counterexample :
    Customer.Home.Typ.Kind = Kind.Struct ∧ (Customer.Home.Tag.Lookup "column").isSome ∧
    Customer.Home.Typ.Name = "Address" ∧ Customer.Home.Name = "Home" ∧
    (processTypeForColumns Customer [] "Customer").at "Address" = [] ∧
    (processTypeForColumns Customer [] "Customer").at "Home" =
      [{ AttributeName := "Street", ColumnString := "street", TypeString := "varchar(255)" }] ∧
    createStatements [Customer] = some
      ["CREATE TABLE IF NOT EXISTS customer (\r\n    id varchar(35) PRIMARY KEY\r\n)\r\n",
        "CREATE TABLE IF NOT EXISTS home (\r\n    street varchar(255)\r\n)\r\n"] := by
  decide

/-! ### Lemmas on nullability and default -/

/-- For a text field and for a field of a listed integer kind, the descriptor
has the nullability string `null` for `null:"true"`, `not null` for
`null:"false"` and none without the annotation, and its default is the
`default` annotation. -/
theorem descriptor_null_default (field : StructField) (col : String)
    (hskip : field.Tag.Lookup "dbskip" = none)
    (hcol : field.Tag.Lookup "column" = some col)
    (hkind : field.Typ.Kind = Kind.String ∨ isIntegerKind field.Typ.Kind = true) :
    (field.Tag.Lookup "null" = some "true" →
      (regularLogic.column field).NullString = "null") ∧
    (field.Tag.Lookup "null" = some "false" →
      (regularLogic.column field).NullString = "not null") ∧
    (field.Tag.Lookup "null" = none → (regularLogic.column field).NullString = "") ∧
    (∀ d, field.Tag.Lookup "default" = some d →
      (regularLogic.column field).DefaultString = d) := by
  simp only [regularLogic.column, hskip, hcol]
  generalize field.Tag.Lookup "null" = null
  generalize field.Tag.Lookup "default" = dflt
  generalize field.Tag.Lookup "datatype" = dt
  cases hk : field.Typ.Kind <;> simp [hk, isIntegerKind] at hkind
  all_goals refine ⟨fun h => ?_, fun h => ?_, fun h => ?_, fun d h => ?_⟩
  all_goals subst h
  all_goals cases dt
  all_goals simp [nullTrueFalse, ifOk]
  all_goals (try split_ifs)
  all_goals (try simp_all)

/-- C19 fails on the code: for a boolean field `regularLogic` never reads
`null`; for a floating-point field it reads neither `null` nor `default`; for a
pointer to a record it copies the value of `null` as it is and does not read
`default`. -/
theorem C19_null_default_not_recorded :
    (regularLogic.column boolNullField).NullString = "" ∧
    ((regularLogic.column floatDefaultField).NullString = "" ∧
      (regularLogic.column floatDefaultField).DefaultString = "") ∧
    ((regularLogic.column pointerNullField).NullString = "true" ∧
      (regularLogic.column pointerNullField).DefaultString = "") ∧
    ((regularLogic.column intNullField).NullString = "not null" ∧
      (regularLogic.column Model.ID).NullString = "not null") := by
  decide

/-! ### Lemmas on the row operations -/

/-- The function `handleSQLError` returns nil exactly when both the error of
the query and the error of the rows are absent. -/
theorem handleSQLError_nil_iff (rowsErr : Option String) (table action : String)
    (err : Option String) (id : String) :
    handleSQLError rowsErr table action err id = none ↔ err = none ∧ rowsErr = none := by
  unfold handleSQLError
  cases err <;> cases rowsErr <;> split_ifs <;> simp

/-- The method `Insert` of the source panics on every entity, before the
statement is issued: the row helpers never all complete. -/
theorem Insert_panics (w : World) (ent : Ent) (a : Answer) :
    Repository.Insert w ent a = .panicked := by
  unfold Repository.Insert
  have h : GetColumns (w.TypeOf ent) = none ∨ GetValues w ent = none := by
    rcases helpers_disagree w ent with h | h
    · exact Or.inl ((helpers_columns w ent).mpr h)
    · exact Or.inr h
  rcases h with h | h
  · rw [h]
  · rw [h]
    cases GetColumns (w.TypeOf ent) <;> cases GetPlaceholders (w.TypeOf ent) <;> rfl

/-- C20 fails on the code, for the table `users`, the identity `42` and the
database error `boom`.  `Delete` knows the identity and passes the empty text
to `handleSQLError`, so its error does not name it.  `SelectIn` returns the
error of `Scan` as it is, without table and operation, and never reads the
error of the rows.  `Take` wraps the error of the query without the operation.
`Select`, `SelectIn`, `Update` and `Delete` defer `rows.Close()` before they
test the error of the query, and panic on the nil rows when the query fails;
`Insert` panics in the row helpers.  `Update` on an error of the rows returns
the error with table, operation and identity. -/
theorem C20_row_errors_not_all_wrapped :
    Repository.Delete "users" (.ok "42") { rowsErr := some "boom" } =
      .returned (some "users DELETE: boom") ∧
    (Repository.SelectIn { scanErr := some "boom" } = .returned (some "boom") ∧
      Repository.SelectIn { rowsErr := some "boom" } = .returned none) ∧
    Repository.Take "users" "42" { queryErr := some "boom" } =
      .returned (some "users \"42\": boom") ∧
    (Repository.Select "users" "42" { queryErr := some "boom" } = .panicked ∧
      Repository.SelectIn { queryErr := some "boom" } = .panicked ∧
      Repository.Update "users" "42" { queryErr := some "boom" } = .panicked ∧
      Repository.Delete "users" (.ok "42") { queryErr := some "boom" } = .panicked) ∧
    (∀ (w : World) (ent : Ent) (a : Answer), Repository.Insert w ent a = .panicked) ∧
    Repository.Update "users" "42" { rowsErr := some "boom" } =
      .returned (some "users UPDATE \"42\": boom") :=
  ⟨by decide, ⟨by decide, by decide⟩, by decide,
    ⟨by decide, by decide, by decide, by decide⟩,
    Insert_panics, by decide⟩

/-! ### Claims on the key annotations -/

@[simp] theorem nullTrueFalse_ForeignKey (n : Option String) (c : Column) :
    (nullTrueFalse n c).ForeignKey = c.ForeignKey := by
  unfold nullTrueFalse; split_ifs <;> rfl

/-- C21, as amended: for every field whose kind is neither text with the
datatype `uuid.UUID` nor pointer to a record, the descriptor built by
`regularLogic` has empty primary-key, foreign-key and reference strings,
whatever annotations the field carries; for a pointer-to-record field that is
not tagged `dbskip` and carries a `column` annotation, the `foreignKey` and
`references` annotations are copied into the descriptor. -/
theorem C21_key_annotations (field : StructField) :
    (¬ (field.Typ.Kind = Kind.String ∧ field.Tag.Lookup "datatype" = some "uuid.UUID") →
      ¬ (field.Typ.Kind = Kind.Ptr ∧ field.Typ.Elem.Kind = Kind.Struct) →
      (regularLogic.column field).PrimaryKey = "" ∧
        (regularLogic.column field).ForeignKey = "" ∧
        (regularLogic.column field).ReferenceString = "") ∧
    (field.Typ.Kind = Kind.Ptr → field.Typ.Elem.Kind = Kind.Struct →
      field.Tag.Lookup "dbskip" = none → (field.Tag.Lookup "column").isSome = true →
      (regularLogic.column field).ForeignKey = ifOk (field.Tag.Lookup "foreignKey") "" ∧
        (regularLogic.column field).ReferenceString =
          ifOk (field.Tag.Lookup "references") "") := by
  constructor
  · intro h1 h2
    simp only [regularLogic.column]
    cases field.Tag.Lookup "dbskip" <;> cases field.Tag.Lookup "column" <;>
      try (exact ⟨rfl, rfl, rfl⟩)
    cases hk : field.Typ.Kind <;> simp [hk] at h1 h2 <;> simp [ifOk]
    · simp [h2]
      split_ifs <;> simp
    · cases hd : field.Tag.Lookup "datatype" with
      | none => simp
      | some d =>
        have hne : d ≠ "uuid.UUID" := fun e => h1 (by rw [hd, e])
        simp [hne]
        split_ifs <;> simp
  · intro hk he hskip hcol
    obtain ⟨col, hcol⟩ := Option.isSome_iff_exists.mp hcol
    simp [regularLogic.column, hskip, hcol, hk, he, ifOk]

/-- Instance of C21 at an integer field with all three key annotations, whose
descriptor has none of them, and at a pointer-to-record field, whose descriptor
has the foreign key and the reference. -/
theorem C21_key_annotations_witness :
    ((regularLogic.column intKeyField).PrimaryKey = "" ∧
      (regularLogic.column intKeyField).ForeignKey = "" ∧
      (regularLogic.column intKeyField).ReferenceString = "") ∧
    ((regularLogic.column pointerReferenceField).ForeignKey = "owner_fk" ∧
      (regularLogic.column pointerReferenceField).ReferenceString = "user") :=
  ⟨(C21_key_annotations intKeyField).1 (by decide) (by decide),
    (C21_key_annotations pointerReferenceField).2 (by decide) (by decide) (by decide)
      (by decide)⟩

/-- C21 as stated fails: a pointer-to-record field with `foreignKey` and
`references` annotations gets the empty descriptor, with neither of them, when
it has no `column` annotation and when it is tagged `dbskip`. -/
theorem C21_counterexample :
    (pointerWithoutColumn.Typ.Kind = Kind.Ptr ∧
      pointerWithoutColumn.Typ.Elem.Kind = Kind.Struct ∧
      pointerWithoutColumn.Tag.Lookup "foreignKey" = some "owner_fk" ∧
      pointerWithoutColumn.Tag.Lookup "references" = some "user" ∧
      (regularLogic.column pointerWithoutColumn).ForeignKey = "" ∧
      (regularLogic.column pointerWithoutColumn).ReferenceString = "") ∧
    (pointerSkipped.Typ.Kind = Kind.Ptr ∧ pointerSkipped.Typ.Elem.Kind = Kind.Struct ∧
      pointerSkipped.Tag.Lookup "foreignKey" = some "owner_fk" ∧
      pointerSkipped.Tag.Lookup "references" = some "user" ∧
      (regularLogic.column pointerSkipped).ForeignKey = "" ∧
      (regularLogic.column pointerSkipped).ReferenceString = "") := by
  decide

/-! ### Claims on the shared map -/

theorem at_appendAt_extends (m : SchemaMap) (key k : String) (c : Column) :
    m.at k <+: (m.appendAt key c).at k := by
  by_cases h : k = key
  · subst h
    rw [at_appendAt_same]
    exact List.prefix_append _ _
  · rw [at_appendAt_other _ _ _ _ h]

mutual
/-- The walk of a type keeps, under every key, the sequence that was there as a
prefix. -/
theorem processTypeForColumns_extends :
    ∀ (t : RType) (columns : SchemaMap) (key k : String),
      columns.at k <+: (processTypeForColumns t columns key).at k
  | .struct _ fields, columns, key, k => by
    simp only [processTypeForColumns]
    exact loop_extends fields columns key k
  | .basic _ _, columns, _, _ => by simp [processTypeForColumns]
  | .ptr _, columns, _, _ => by simp [processTypeForColumns]
/-- The loop over the fields keeps every sequence as a prefix. -/
theorem loop_extends :
    ∀ (fields : List StructField) (columns : SchemaMap) (key k : String),
      columns.at k <+: (processTypeForColumns.loop fields columns key).at k
  | [], columns, _, _ => by simp [processTypeForColumns.loop]
  | field :: rest, columns, key, k => by
    simp only [processTypeForColumns.loop]
    split_ifs
    · exact loop_extends rest columns key k
    · exact (field_extends field columns key k).trans
        (loop_extends rest (regularLogic.field field columns key) key k)
/-- The step of `regularLogic` on one field keeps every sequence as a prefix. -/
theorem field_extends :
    ∀ (field : StructField) (columns : SchemaMap) (key k : String),
      columns.at k <+: (regularLogic.field field columns key).at k
  | .mk name typ tag, columns, key, k => by
    simp only [regularLogic.field]
    split_ifs
    · exact (processTypeForColumns_extends typ columns name k).trans
        (at_appendAt_extends _ key k _)
    · exact at_appendAt_extends _ key k _
end

/-- The step of `regularLogic` on one field ends the sequence under the current
key with the descriptor of the field. -/
theorem field_appends (field : StructField) (columns : SchemaMap) (key : String) :
    ∃ nested, (regularLogic.field field columns key).at key =
      columns.at key ++ (nested ++ [regularLogic.column field]) := by
  cases field with
  | mk name typ tag =>
    simp only [regularLogic.field]
    split_ifs
    · obtain ⟨nested, hn⟩ := processTypeForColumns_extends typ columns name key
      refine ⟨nested, ?_⟩
      rw [at_appendAt_same, ← hn, List.append_assoc]
    · exact ⟨[], by rw [at_appendAt_same]; rfl⟩

/-- The loop over the fields appends, under the current key, a sequence that
holds the descriptors of the fields in declaration order. -/
theorem loop_ordered (key : String) (fields : List StructField) :
    ∀ columns : SchemaMap, ∃ extra,
      (processTypeForColumns.loop fields columns key).at key = columns.at key ++ extra ∧
        List.Sublist (ownDescriptors fields) extra := by
  induction fields with
  | nil => intro columns; exact ⟨[], by simp [processTypeForColumns.loop, ownDescriptors]⟩
  | cons f fs ih =>
    intro columns
    by_cases hskip : (f.Tag.Lookup "dbskip").isSome = true
    · obtain ⟨extra, h1, h2⟩ := ih columns
      refine ⟨extra, ?_, ?_⟩
      · simp only [processTypeForColumns.loop, hskip, if_true]
        exact h1
      · simpa [ownDescriptors, List.filter, hskip] using h2
    · obtain ⟨extra, h1, h2⟩ := ih (regularLogic.field f columns key)
      obtain ⟨nested, hn⟩ := field_appends f columns key
      refine ⟨nested ++ [regularLogic.column f] ++ extra, ?_, ?_⟩
      · simp only [processTypeForColumns.loop, hskip]
        simp only [Bool.false_eq_true, if_false]
        rw [h1, hn]
        simp
      · have hown : ownDescriptors (f :: fs) = regularLogic.column f :: ownDescriptors fs := by
          simp [ownDescriptors, List.filter, hskip]
        rw [hown, List.append_assoc]
        exact List.Sublist.trans ((List.Sublist.cons₂ _ h2))
          (List.sublist_append_right nested _)

/-- C22: `processTypeForColumns` is append-only on the shared map.  For every
type, every initial map and every current key, the sequence that each key had
before is a prefix of the sequence it has after, and the sequence added under
the current key holds the descriptors of the own fields of the type (one for
each field not tagged `dbskip`) in field declaration order. -/
theorem C22_extraction_append_only (t : RType) (columns : SchemaMap) (key : String) :
    (∀ k, columns.at k <+: (processTypeForColumns t columns key).at k) ∧
    (∃ extra, (processTypeForColumns t columns key).at key = columns.at key ++ extra ∧
      List.Sublist (ownDescriptors t.fields) extra) := by
  refine ⟨fun k => processTypeForColumns_extends t columns key k, ?_⟩
  cases t with
  | struct name fields =>
    simp only [processTypeForColumns, RType.fields]
    exact loop_ordered key fields columns
  | basic kind name =>
    exact ⟨[], by simp [processTypeForColumns], by simp [RType.fields, ownDescriptors]⟩
  | ptr elem =>
    exact ⟨[], by simp [processTypeForColumns], by simp [RType.fields, ownDescriptors]⟩

/-! ### Claims on the statement executor -/

theorem picks_mem {α : Type} (l : List α) (p : α × List α) (h : p ∈ picks l) :
    ∃ pre post, l = pre ++ p.1 :: post ∧ p.2 = pre ++ post := by
  induction l generalizing p with
  | nil => simp [picks] at h
  | cons x xs ih =>
    simp only [picks, List.mem_cons, List.mem_map] at h
    rcases h with h | ⟨q, hq, h⟩
    · subst h
      exact ⟨[], xs, rfl, rfl⟩
    · obtain ⟨pre, post, h1, h2⟩ := ih q hq
      subst h
      exact ⟨x :: pre, post, by simp [h1], by simp [h2]⟩

/-- Every state of `Run.successors` is reached by one of the rules of `Step`. -/
theorem step_of_successor (db : String → Option String) (s s1 : Run)
    (h : s1 ∈ s.successors db) : Step db s s1 := by
  simp only [Run.successors, List.mem_append] at h
  rcases h with (h | h) | h
  · unfold Run.mainSteps at h
    split at h
    · next hpc =>
      split at h
      · next k rest hk =>
        rw [List.mem_singleton] at h
        subst h
        exact Step.spawnCreate s k rest hpc hk
      · next hk =>
        rw [List.mem_singleton] at h
        subst h
        exact Step.toBarrier s hpc hk
    · next hpc =>
      split_ifs at h with hwg
      · rw [List.mem_singleton] at h
        subst h
        exact Step.pass s hpc hwg
      · simp at h
    · next hpc =>
      split at h
      · next k rest hk =>
        rw [List.mem_singleton] at h
        subst h
        exact Step.spawnAlter s k rest hpc hk
      · next hk =>
        rw [List.mem_singleton] at h
        subst h
        exact Step.toDrain s hpc hk
    · next hpc =>
      rw [List.mem_append] at h
      rcases h with h | h
      · rw [List.mem_map] at h
        obtain ⟨p, hp, h⟩ := h
        obtain ⟨pre, post, h1, h2⟩ := picks_mem _ _ hp
        subst h
        rw [h2]
        exact Step.receive s pre post p.1.1 p.1.2 hpc h1
      · split_ifs at h with hc
        · rw [List.mem_singleton] at h
          subst h
          exact Step.receiveClosed s hpc hc
        · simp at h
    · simp at h
  · simp only [Run.taskSteps, List.mem_append, List.mem_map] at h
    rcases h with ⟨p, hp, h⟩ | ⟨p, hp, h⟩
    · obtain ⟨pre, post, h1, h2⟩ := picks_mem _ _ hp
      cases hdb : db p.1.stmt with
      | none =>
        rw [hdb] at h
        subst h
        rw [h2]
        exact Step.queryOk s pre post p.1 h1 hdb
      | some err =>
        rw [hdb] at h
        subst h
        rw [h2]
        exact Step.queryFails s pre post p.1 err h1 hdb
    · obtain ⟨pre, post, h1, h2⟩ := picks_mem _ _ hp
      subst h
      rw [h2]
      exact Step.finish s pre post p.1 h1
  · unfold Run.closerSteps at h
    split_ifs at h with hc
    · rw [List.mem_singleton] at h
      subst h
      exact Step.close s hc.1 hc.2
    · simp at h

theorem inv_init (st : Synthesis) :
    (Executor.init st).Inv (st.tables ++ st.joins.map (·.SQL)) (st.alters.map (·.SQL)) := by
  constructor <;> simp [Executor.init, Run.running, Run.tasks]

theorem inv_step_wg (db : String → Option String) (s s1 : Run)
    (hwg : s.wg = s.running.length) (h : Step db s s1) : s1.wg = s1.running.length := by
  cases h <;> simp_all [Run.running] <;> omega

theorem inv_step_early (db : String → Option String) (alters : List String) (s s1 : Run)
    (hearly : s.pc = Pc.dispatchCreate ∨ s.pc = Pc.barrier →
      (∀ t ∈ s.tasks, t.phase = Phase.create) ∧ s.closer = false ∧ s.closed = false ∧
        s.log = [] ∧ s.toAlter = alters)
    (h : Step db s s1) :
    s1.pc = Pc.dispatchCreate ∨ s1.pc = Pc.barrier →
      (∀ t ∈ s1.tasks, t.phase = Phase.create) ∧ s1.closer = false ∧ s1.closed = false ∧
        s1.log = [] ∧ s1.toAlter = alters := by
  cases h <;> simp_all [Run.running, Run.tasks]
  all_goals aesop

theorem inv_step_left (db : String → Option String) (s s1 : Run)
    (hleft : s.pc ≠ Pc.dispatchCreate → s.toCreate = []) (h : Step db s s1) :
    s1.pc ≠ Pc.dispatchCreate → s1.toCreate = [] := by
  cases h <;> simp_all

theorem inv_step_late (db : String → Option String) (s s1 : Run)
    (hwg : s.wg = s.running.length)
    (hlate : ¬ (s.pc = Pc.dispatchCreate ∨ s.pc = Pc.barrier) →
      ∀ t ∈ s.running, t.phase = Phase.alter)
    (h : Step db s s1) :
    ¬ (s1.pc = Pc.dispatchCreate ∨ s1.pc = Pc.barrier) →
      ∀ t ∈ s1.running, t.phase = Phase.alter := by
  cases h with
  | pass hpc hz =>
    intro _ t ht
    rw [hz] at hwg
    rw [show ({ s with pc := Pc.dispatchAlter } : Run).running = s.running from rfl,
      List.length_eq_zero.mp hwg.symm] at ht
    simp at ht
  | _ =>
    simp_all [Run.running]
    try aesop

/-- What a step does to the statements left and to the goroutines: it moves a
goroutine, or starts one on the next statement of a batch. -/
theorem step_tasks (db : String → Option String) (s s1 : Run) (h : Step db s s1) :
    (s1.toCreate = s.toCreate ∧ s1.toAlter = s.toAlter ∧ s1.tasks.Perm s.tasks) ∨
    (∃ k, s.toCreate = k :: s1.toCreate ∧ s1.toAlter = s.toAlter ∧
      s1.tasks.Perm (⟨Phase.create, k⟩ :: s.tasks)) ∨
    (∃ k, s.toAlter = k :: s1.toAlter ∧ s1.toCreate = s.toCreate ∧
      s1.tasks.Perm (⟨Phase.alter, k⟩ :: s.tasks)) := by
  cases h with
  | spawnCreate k rest hpc hk =>
    refine Or.inr (Or.inl ⟨k, hk, rfl, ?_⟩)
    rw [List.perm_iff_count]
    intro a
    simp [Run.tasks, Run.running, List.count_cons]
    omega
  | spawnAlter k rest hpc hk =>
    refine Or.inr (Or.inr ⟨k, hk, rfl, ?_⟩)
    rw [List.perm_iff_count]
    intro a
    simp [Run.tasks, Run.running, List.count_cons]
    omega
  | toBarrier hpc hk => exact Or.inl ⟨rfl, rfl, List.Perm.refl _⟩
  | pass hpc hz => exact Or.inl ⟨rfl, rfl, List.Perm.refl _⟩
  | toDrain hpc hk => exact Or.inl ⟨rfl, rfl, List.Perm.refl _⟩
  | receiveClosed hpc hc => exact Or.inl ⟨rfl, rfl, List.Perm.refl _⟩
  | close hc hz => exact Or.inl ⟨rfl, rfl, List.Perm.refl _⟩
  | receive pre post t msg hpc hsend =>
    refine Or.inl ⟨rfl, rfl, ?_⟩
    rw [List.perm_iff_count]
    intro a
    simp [Run.tasks, Run.running, List.count_cons, hsend]
    omega
  | queryFails pre post t err hsp hdb =>
    refine Or.inl ⟨rfl, rfl, ?_⟩
    rw [List.perm_iff_count]
    intro a
    simp [Run.tasks, Run.running, List.count_cons, hsp]
    omega
  | queryOk pre post t hsp hdb =>
    refine Or.inl ⟨rfl, rfl, ?_⟩
    rw [List.perm_iff_count]
    intro a
    simp [Run.tasks, Run.running, List.count_cons, hsp]
    omega
  | finish pre post t hfin =>
    refine Or.inl ⟨rfl, rfl, ?_⟩
    rw [List.perm_iff_count]
    intro a
    simp [Run.tasks, Run.running, List.count_cons, hfin]
    omega

theorem inv_step_perm (db : String → Option String) (creates alters : List String)
    (s s1 : Run)
    (hcp : (s.toCreate ++
      (s.tasks.filter fun t => t.phase = Phase.create).map (·.stmt)).Perm creates)
    (hap : (s.toAlter ++
      (s.tasks.filter fun t => t.phase = Phase.alter).map (·.stmt)).Perm alters)
    (h : Step db s s1) :
    (s1.toCreate ++
        (s1.tasks.filter fun t => t.phase = Phase.create).map (·.stmt)).Perm creates ∧
      (s1.toAlter ++
        (s1.tasks.filter fun t => t.phase = Phase.alter).map (·.stmt)).Perm alters := by
  rcases step_tasks db s s1 h with ⟨h1, h2, h3⟩ | ⟨k, h1, h2, h3⟩ | ⟨k, h1, h2, h3⟩
  · rw [h1, h2]
    exact ⟨(((h3.filter _).map _).append_left _).trans hcp,
      (((h3.filter _).map _).append_left _).trans hap⟩
  · rw [h2]
    refine ⟨?_, (((h3.filter _).map _).append_left _).trans ?_⟩
    · refine (((h3.filter _).map _).append_left _).trans ?_
      rw [h1] at hcp
      refine List.Perm.trans ?_ hcp
      simp [List.filter_cons]
    · simpa [List.filter_cons] using hap
  · rw [h2]
    refine ⟨(((h3.filter _).map _).append_left _).trans ?_, ?_⟩
    · simpa [List.filter_cons] using hcp
    · refine (((h3.filter _).map _).append_left _).trans ?_
      rw [h1] at hap
      refine List.Perm.trans ?_ hap
      simp [List.filter_cons]

theorem inv_step (db : String → Option String) (creates alters : List String) (s s1 : Run)
    (hs : s.Inv creates alters) (h : Step db s s1) : s1.Inv creates alters :=
  ⟨inv_step_wg db s s1 hs.wg_eq h, inv_step_early db alters s s1 hs.early h,
    inv_step_left db s s1 hs.left h, inv_step_late db s s1 hs.wg_eq hs.late h,
    (inv_step_perm db creates alters s s1 hs.creates_perm hs.alters_perm h).1,
    (inv_step_perm db creates alters s s1 hs.creates_perm hs.alters_perm h).2⟩

/-- Every state of a run has the properties of `Run.Inv`. -/
theorem inv_reachable (db : String → Option String) (st : Synthesis) (s : Run)
    (h : Reachable db (Executor.init st) s) :
    s.Inv (st.tables ++ st.joins.map (·.SQL)) (st.alters.map (·.SQL)) := by
  induction h with
  | start => exact inv_init st
  | step _ hmem ih => exact inv_step db _ _ _ _ ih (step_of_successor db _ _ hmem)

/-- A goroutine of the first batch whose statement fails stays where it is up
to the barrier, and the main goroutine does not pass the barrier. -/
theorem blocked_step (db : String → Option String) (creates alters : List String)
    (bad err : String) (hbad : db bad = some err) (s s1 : Run) (hs : s.Inv creates alters)
    (hb : (s.pc = Pc.dispatchCreate ∨ s.pc = Pc.barrier) ∧
      (bad ∈ s.toCreate ∨ ⟨Phase.create, bad⟩ ∈ s.spawned ∨
        ((⟨Phase.create, bad⟩ : Task), failureLine bad err) ∈ s.sending))
    (h : Step db s s1) :
    (s1.pc = Pc.dispatchCreate ∨ s1.pc = Pc.barrier) ∧
      (bad ∈ s1.toCreate ∨ ⟨Phase.create, bad⟩ ∈ s1.spawned ∨
        ((⟨Phase.create, bad⟩ : Task), failureLine bad err) ∈ s1.sending) := by
  obtain ⟨hpc, hloc⟩ := hb
  cases h with
  | spawnCreate k rest hpc1 hk =>
    refine ⟨hpc, ?_⟩
    rw [hk] at hloc
    rcases hloc with h1 | h1 | h1
    · rcases List.mem_cons.mp h1 with h2 | h2
      · exact Or.inr (Or.inl (by simp [h2]))
      · exact Or.inl h2
    · exact Or.inr (Or.inl (by simp [h1]))
    · exact Or.inr (Or.inr h1)
  | toBarrier hpc1 hk => exact ⟨Or.inr rfl, hloc⟩
  | pass hpc1 hz =>
    exfalso
    have hwg := hs.wg_eq
    have hleft := hs.left (by rw [hpc1]; decide)
    rw [hz] at hwg
    have hrun : s.running = [] := List.length_eq_zero.mp hwg.symm
    simp only [Run.running, List.append_eq_nil, List.map_eq_nil_iff] at hrun
    obtain ⟨⟨h1, h2⟩, _⟩ := hrun
    rw [hleft, h1, h2] at hloc
    simp at hloc
  | spawnAlter k rest hpc1 hk => rw [hpc1] at hpc; simp at hpc
  | toDrain hpc1 hk => rw [hpc1] at hpc; simp at hpc
  | receive pre post t msg hpc1 hsend => rw [hpc1] at hpc; simp at hpc
  | receiveClosed hpc1 hc => rw [hpc1] at hpc; simp at hpc
  | queryFails pre post t e hsp hdb =>
    refine ⟨hpc, ?_⟩
    rcases hloc with h1 | h1 | h1
    · exact Or.inl h1
    · rw [hsp] at h1
      rcases List.mem_append.mp h1 with h2 | h2
      · exact Or.inr (Or.inl (by simp [h2]))
      · rcases List.mem_cons.mp h2 with h3 | h3
        · subst h3
          have he : e = err := by
            have := hdb.symm.trans hbad
            exact Option.some.inj this
          subst he
          exact Or.inr (Or.inr (by simp))
        · exact Or.inr (Or.inl (by simp [h3]))
    · exact Or.inr (Or.inr (by simp [h1]))
  | queryOk pre post t hsp hdb =>
    refine ⟨hpc, ?_⟩
    rcases hloc with h1 | h1 | h1
    · exact Or.inl h1
    · rw [hsp] at h1
      rcases List.mem_append.mp h1 with h2 | h2
      · exact Or.inr (Or.inl (by simp [h2]))
      · rcases List.mem_cons.mp h2 with h3 | h3
        · subst h3
          rw [hbad] at hdb
          simp at hdb
        · exact Or.inr (Or.inl (by simp [h3]))
    · exact Or.inr (Or.inr h1)
  | finish pre post t hfin => exact ⟨hpc, hloc⟩
  | close hc hz => exact ⟨hpc, hloc⟩

/-- With a failing statement in the first batch, every state of a run is at or
before the barrier, with the failing statement not yet handed out, or its
goroutine not yet at its query, or standing at its send. -/
theorem blocked_reachable (db : String → Option String) (st : Synthesis) (bad err : String)
    (hmem : bad ∈ st.tables ++ st.joins.map (·.SQL)) (hbad : db bad = some err) (s : Run)
    (h : Reachable db (Executor.init st) s) :
    (s.pc = Pc.dispatchCreate ∨ s.pc = Pc.barrier) ∧
      (bad ∈ s.toCreate ∨ ⟨Phase.create, bad⟩ ∈ s.spawned ∨
        ((⟨Phase.create, bad⟩ : Task), failureLine bad err) ∈ s.sending) := by
  induction h with
  | start => exact ⟨Or.inl rfl, Or.inl hmem⟩
  | step hr hs ih =>
    exact blocked_step db _ _ bad err hbad _ _ (inv_reachable db st _ hr) ih
      (step_of_successor db _ _ hs)

/-- The batches are ordered: in a state of a run in which a goroutine of the
second batch exists, no statement of the first batch is left, no goroutine
of the first batch is running, and the goroutines of the first batch that are
done are those of all its statements. -/
theorem executor_ordered (db : String → Option String) (st : Synthesis) (s : Run)
    (h : Reachable db (Executor.init st) s) (t : Task) (ht : t ∈ s.tasks)
    (hph : t.phase = Phase.alter) :
    s.toCreate = [] ∧ (∀ u ∈ s.running, u.phase = Phase.alter) ∧
      ((s.done.filter fun u => u.phase = Phase.create).map (·.stmt)).Perm
        (st.tables ++ st.joins.map (·.SQL)) := by
  have hinv := inv_reachable db st s h
  have hlate : ¬ (s.pc = Pc.dispatchCreate ∨ s.pc = Pc.barrier) := by
    intro hearly
    have := (hinv.early hearly).1 t ht
    rw [hph] at this
    exact absurd this (by decide)
  have hleft : s.toCreate = [] := hinv.left (fun hpc => hlate (Or.inl hpc))
  have hrun := hinv.late hlate
  refine ⟨hleft, hrun, ?_⟩
  have hcp := hinv.creates_perm
  have hnone : (s.running.filter fun u => decide (u.phase = Phase.create)) = [] := by
    rw [List.filter_eq_nil_iff]
    intro u hu
    rw [decide_eq_true_eq, hrun u hu]
    decide
  rw [hleft, Run.tasks, List.filter_append, hnone] at hcp
  simpa using hcp

theorem follow_reachable (db : String → Option String) (s0 : Run) (choices : List Nat) :
    ∀ s s1 : Run, Reachable db s0 s → Run.follow db s choices = some s1 →
      Reachable db s0 s1 := by
  induction choices with
  | nil =>
    intro s s1 hr hf
    simp only [Run.follow, Option.some.injEq] at hf
    exact hf ▸ hr
  | cons i rest ih =>
    intro s s1 hr hf
    simp only [Run.follow] at hf
    cases hget : (s.successors db).get? i with
    | none => rw [hget] at hf; simp at hf
    | some s2 =>
      rw [hget] at hf
      exact ih s2 s1 (Reachable.step hr (List.get?_mem hget)) hf

/-- The record `Invoice` gives the statements of `invoiceSchema`. -/
theorem synthesis_invoice :
    CreateTables.synthesis (readAnnotations [Invoice]) = some invoiceSchema := by
  decide

/-- C23 fails on the code.  The order of the batches holds: in every state of
every run in which a goroutine of an `ALTER` statement exists, every `CREATE`
statement has been handed to a goroutine and every such goroutine is done.  But
the goroutine of a failing statement stands at its send on `erchan`, which has
no buffer and is only read after both barriers, while the main goroutine waits
at `wg.Wait()` for this goroutine: when a statement of the first batch fails,
no state of any run is past the barrier, so the run does not return, and nothing
is logged. -/
theorem C23_failed_create_blocks_executor (st : Synthesis) (db : String → Option String)
    (s : Run) (h : Reachable db (Executor.init st) s) :
    ((∃ t ∈ s.tasks, t.phase = Phase.alter) →
      s.toCreate = [] ∧ (∀ u ∈ s.running, u.phase = Phase.alter) ∧
        ((s.done.filter fun u => u.phase = Phase.create).map (·.stmt)).Perm
          (st.tables ++ st.joins.map (·.SQL))) ∧
    (∀ bad err : String, bad ∈ st.tables ++ st.joins.map (·.SQL) → db bad = some err →
      (s.pc = Pc.dispatchCreate ∨ s.pc = Pc.barrier) ∧ s.log = [] ∧ s.closed = false ∧
        (∀ t ∈ s.tasks, t.phase = Phase.create)) := by
  constructor
  · rintro ⟨t, ht, hph⟩
    exact executor_ordered db st s h t ht hph
  · intro bad err hmem hbad
    have hpc := (blocked_reachable db st bad err hmem hbad s h).1
    obtain ⟨h1, _, h3, h4, _⟩ := (inv_reachable db st s h).early hpc
    exact ⟨hpc, h4, h3, h1⟩

/-- Instance of C23 on the statements of the record `Invoice`.  With the
`CREATE TABLE` statement rejected, the run reaches a state in which no goroutine
can move, the main goroutine at the barrier, nothing logged; with the alter
statement rejected, the goroutine of the alter statement is started after
the goroutine of the `CREATE TABLE` statement is done. -/
theorem C23_failed_create_blocks_executor_witness :
    (Run.follow rejectsCreate (Executor.init invoiceSchema) [0, 0, 0] = some blockedRun ∧
      blockedRun.successors rejectsCreate = [] ∧
      (blockedRun.pc = Pc.dispatchCreate ∨ blockedRun.pc = Pc.barrier) ∧
      blockedRun.log = [] ∧ blockedRun.closed = false ∧
      (∀ t ∈ blockedRun.tasks, t.phase = Phase.create)) ∧
    (Run.follow rejectsAlter (Executor.init invoiceSchema) [0, 0, 0, 0, 0, 0] =
        some alterStartedRun ∧
      alterStartedRun.toCreate = [] ∧
      (∀ u ∈ alterStartedRun.running, u.phase = Phase.alter) ∧
      ((alterStartedRun.done.filter fun u => u.phase = Phase.create).map (·.stmt)).Perm
        (invoiceSchema.tables ++ invoiceSchema.joins.map (·.SQL))) :=
  ⟨⟨by decide, by decide,
      (C23_failed_create_blocks_executor invoiceSchema rejectsCreate blockedRun
        (follow_reachable rejectsCreate _ [0, 0, 0] _ _ Reachable.start (by decide))).2
        invoiceCreate
        "Error 1142: CREATE command denied" (by decide) (by decide)⟩,
    ⟨by decide,
      (C23_failed_create_blocks_executor invoiceSchema rejectsAlter alterStartedRun
        (follow_reachable rejectsAlter _ [0, 0, 0, 0, 0, 0] _ _ Reachable.start
          (by decide))).1 ⟨⟨Phase.alter, invoiceAlter⟩, by decide, rfl⟩⟩⟩

/-- A failing statement of the second batch is reported: on the statements of
the record `Invoice` with the alter statement rejected, the run reaches the
return with the message of the statement logged between the line of the count
and the empty line of the closed channel. -/
theorem executor_reports_failed_alter :
    Run.follow rejectsAlter (Executor.init invoiceSchema) [0, 0, 0, 0, 0, 0, 0, 0, 0, 0, 0, 0] =
      some returnedRun ∧
    Reachable rejectsAlter (Executor.init invoiceSchema) returnedRun :=
  ⟨by decide, follow_reachable rejectsAlter _ [0, 0, 0, 0, 0, 0, 0, 0, 0, 0, 0, 0] _ _
    Reachable.start (by decide)⟩

/-! ### The runs of the executor without a failure in the first batch -/

/-- Every step makes the measure smaller, so that a run from a state `s` has at
most `s.measure` steps. -/
theorem step_measure (db : String → Option String) (s s1 : Run) (h : Step db s s1) :
    s1.measure < s.measure := by
  cases h <;> simp_all [Run.measure] <;> omega

theorem late_init (db : String → Option String) (st : Synthesis) :
    (Executor.init st).Late db (st.alters.map (·.SQL)) := by
  constructor <;> simp [Executor.init, Run.running]

theorem late_step_closer (db : String → Option String) (s s1 : Run)
    (h1 : s.closer = true → s.pc = Pc.drain ∧ s.closed = false)
    (h2 : s.closed = true → s.running = [] ∧ (s.pc = Pc.drain ∨ s.pc = Pc.returned))
    (h : Step db s s1) :
    s1.closer = true → s1.pc = Pc.drain ∧ s1.closed = false := by
  cases h <;> simp_all

theorem late_step_closed (db : String → Option String) (s s1 : Run)
    (hwg : s.wg = s.running.length)
    (h1 : s.closer = true → s.pc = Pc.drain ∧ s.closed = false)
    (h2 : s.closed = true → s.running = [] ∧ (s.pc = Pc.drain ∨ s.pc = Pc.returned))
    (h : Step db s s1) :
    s1.closed = true → s1.running = [] ∧ (s1.pc = Pc.drain ∨ s1.pc = Pc.returned) := by
  cases h with
  | close hc hz =>
    intro _
    rw [hz] at hwg
    exact ⟨List.length_eq_zero.mp hwg.symm, Or.inl (h1 hc).1⟩
  | _ => simp_all [Run.running]

theorem late_step_drain (db : String → Option String) (s s1 : Run)
    (h1 : s.closer = true → s.pc = Pc.drain ∧ s.closed = false)
    (h3 : s.pc = Pc.drain → (s.closer = true ∨ s.closed = true) ∧ s.toAlter = [])
    (h4 : s.pc = Pc.returned → s.closed = true ∧ s.toAlter = [])
    (h : Step db s s1) :
    (s1.pc = Pc.drain → (s1.closer = true ∨ s1.closed = true) ∧ s1.toAlter = []) ∧
      (s1.pc = Pc.returned → s1.closed = true ∧ s1.toAlter = []) := by
  cases h <;> simp_all

theorem late_step_sending (db : String → Option String) (s s1 : Run)
    (h5 : ∀ p ∈ s.sending, ∃ err, db p.1.stmt = some err) (h : Step db s s1) :
    ∀ p ∈ s1.sending, ∃ err, db p.1.stmt = some err := by
  cases h <;> simp_all
  all_goals aesop

theorem failureLines_append (db : String → Option String) (l₁ l₂ : List String) :
    failureLines db (l₁ ++ l₂) = failureLines db l₁ ++ failureLines db l₂ := by
  simp [failureLines, List.filterMap_append]

theorem failureLines_cons (db : String → Option String) (k : String) (l : List String) :
    failureLines db (k :: l) = failureLines db [k] ++ failureLines db l :=
  failureLines_append db [k] l

theorem failureLines_failed (db : String → Option String) (k err : String)
    (h : db k = some err) : failureLines db [k] = [failureLine k err] := by
  simp [failureLines, h]

theorem failureLines_passed (db : String → Option String) (k : String) (h : db k = none) :
    failureLines db [k] = [] := by
  simp [failureLines, h]

theorem late_step_logged (db : String → Option String) (alters : List String) (s s1 : Run)
    (hwg : s.wg = s.running.length)
    (hearly : s.pc = Pc.dispatchCreate ∨ s.pc = Pc.barrier → s.log = [] ∧ s.toAlter = alters)
    (h6 : ¬ (s.pc = Pc.dispatchCreate ∨ s.pc = Pc.barrier) →
      ∃ msgs, s.log = (if s.pc = Pc.dispatchAlter then [] else ["error count: 0"]) ++ msgs ++
          (if s.pc = Pc.returned then [""] else []) ∧
        (s.pc = Pc.dispatchAlter → msgs = []) ∧
        (msgs ++ s.sending.map Prod.snd ++ failureLines db (s.spawned.map (·.stmt)) ++
          failureLines db s.toAlter).Perm (failureLines db alters))
    (h : Step db s s1) :
    ¬ (s1.pc = Pc.dispatchCreate ∨ s1.pc = Pc.barrier) →
      ∃ msgs, s1.log = (if s1.pc = Pc.dispatchAlter then [] else ["error count: 0"]) ++ msgs ++
          (if s1.pc = Pc.returned then [""] else []) ∧
        (s1.pc = Pc.dispatchAlter → msgs = []) ∧
        (msgs ++ s1.sending.map Prod.snd ++ failureLines db (s1.spawned.map (·.stmt)) ++
          failureLines db s1.toAlter).Perm (failureLines db alters) := by
  cases h with
  | spawnCreate k rest hpc hk => intro hn; exact absurd (Or.inl hpc) hn
  | toBarrier hpc hk => intro hn; exact absurd (Or.inr rfl) hn
  | pass hpc hz =>
    intro _
    obtain ⟨hlog, halt⟩ := hearly (Or.inr hpc)
    rw [hz] at hwg
    have hrun : s.running = [] := List.length_eq_zero.mp hwg.symm
    simp only [Run.running, List.append_eq_nil, List.map_eq_nil_iff] at hrun
    obtain ⟨⟨hsp, hse⟩, _⟩ := hrun
    refine ⟨[], ?_, fun _ => rfl, ?_⟩
    · simp [hlog]
    · simp [hsp, hse, halt, failureLines]
  | spawnAlter k rest hpc hk =>
    intro _
    obtain ⟨msgs, hlog, hnil, hperm⟩ := h6 (by simp [hpc])
    refine ⟨msgs, ?_, ?_, ?_⟩
    · simpa [hpc] using hlog
    · simpa [hpc] using hnil
    · rw [hk, failureLines_cons] at hperm
      simpa [failureLines_append] using hperm
  | toDrain hpc hk =>
    intro _
    obtain ⟨msgs, hlog, hnil, hperm⟩ := h6 (by simp [hpc])
    have hm := hnil hpc
    subst hm
    refine ⟨[], ?_, ?_, ?_⟩
    · simp [hpc] at hlog
      simp [hlog]
    · simp
    · simpa using hperm
  | receive pre post t msg hpc hsend =>
    intro _
    obtain ⟨msgs, hlog, hnil, hperm⟩ := h6 (by simp [hpc])
    refine ⟨msgs ++ [msg], ?_, ?_, ?_⟩
    · simp [hpc] at hlog
      simp [hpc, hlog]
    · simp [hpc]
    · refine List.Perm.trans ?_ hperm
      rw [hsend, List.perm_iff_count]
      intro a
      simp [List.count_cons]
      omega
  | receiveClosed hpc hc =>
    intro _
    obtain ⟨msgs, hlog, hnil, hperm⟩ := h6 (by simp [hpc])
    refine ⟨msgs, ?_, ?_, hperm⟩
    · simp [hpc] at hlog
      simp [hlog]
    · simp
  | queryFails pre post t err hsp hdb =>
    intro hn
    obtain ⟨msgs, hlog, hnil, hperm⟩ := h6 hn
    refine ⟨msgs, hlog, hnil, ?_⟩
    refine List.Perm.trans ?_ hperm
    have e : failureLines db ((pre ++ t :: post).map (·.stmt)) =
        failureLines db (pre.map (·.stmt)) ++
          ([failureLine t.stmt err] ++ failureLines db (post.map (·.stmt))) := by
      rw [List.map_append, failureLines_append, List.map_cons, failureLines_cons,
        failureLines_failed db t.stmt err hdb]
    rw [hsp, e, List.perm_iff_count]
    intro a
    simp [List.count_cons, failureLines_append]
    omega
  | queryOk pre post t hsp hdb =>
    intro hn
    obtain ⟨msgs, hlog, hnil, hperm⟩ := h6 hn
    refine ⟨msgs, hlog, hnil, ?_⟩
    refine List.Perm.trans ?_ hperm
    have e : failureLines db ((pre ++ t :: post).map (·.stmt)) =
        failureLines db (pre.map (·.stmt)) ++ failureLines db (post.map (·.stmt)) := by
      rw [List.map_append, failureLines_append, List.map_cons, failureLines_cons,
        failureLines_passed db t.stmt hdb, List.nil_append]
    rw [hsp, e]
    simp [failureLines_append]
  | finish pre post t hfin => exact h6
  | close hc hz => exact h6

theorem late_step (db : String → Option String) (creates alters : List String) (s s1 : Run)
    (hs : s.Inv creates alters) (hl : s.Late db alters) (h : Step db s s1) :
    s1.Late db alters :=
  ⟨late_step_closer db s s1 hl.closer_at hl.closed_at h,
    late_step_closed db s s1 hs.wg_eq hl.closer_at hl.closed_at h,
    (late_step_drain db s s1 hl.closer_at hl.drain_at hl.returned_at h).1,
    (late_step_drain db s s1 hl.closer_at hl.drain_at hl.returned_at h).2,
    late_step_sending db s s1 hl.sending_failed h,
    late_step_logged db alters s s1 hs.wg_eq
      (fun he => ⟨(hs.early he).2.2.2.1, (hs.early he).2.2.2.2⟩) hl.logged h⟩

/-- Every state of a run has the properties of `Run.Late`. -/
theorem late_reachable (db : String → Option String) (st : Synthesis) (s : Run)
    (h : Reachable db (Executor.init st) s) : s.Late db (st.alters.map (·.SQL)) := by
  induction h with
  | start => exact late_init db st
  | step hr hmem ih =>
    exact late_step db _ _ _ _ (inv_reachable db st _ hr) ih (step_of_successor db _ _ hmem)

/-- The report of a run that returns: every goroutine is done, and the log is
the line of the count, then the messages of the failing alter statements in
some order, each the statement followed by its database error, then the empty
line read from the closed channel. -/
theorem executor_report (db : String → Option String) (st : Synthesis) (s : Run)
    (h : Reachable db (Executor.init st) s) (hpc : s.pc = Pc.returned) :
    s.running = [] ∧ s.toCreate = [] ∧ s.toAlter = [] ∧
      ∃ msgs, s.log = "error count: 0" :: msgs ++ [""] ∧
        msgs.Perm (failureLines db (st.alters.map (·.SQL))) := by
  have hl := late_reachable db st s h
  have hi := inv_reachable db st s h
  obtain ⟨hclosed, halt⟩ := hl.returned_at hpc
  have hrun := (hl.closed_at hclosed).1
  obtain ⟨msgs, hlog, _, hperm⟩ := hl.logged (by simp [hpc])
  refine ⟨hrun, hi.left (by simp [hpc]), halt, msgs, ?_, ?_⟩
  · simpa [hpc] using hlog
  · simp only [Run.running, List.append_eq_nil, List.map_eq_nil_iff] at hrun
    obtain ⟨⟨hsp, hse⟩, _⟩ := hrun
    simpa [hsp, hse, halt, failureLines] using hperm

theorem picks_eq_nil {α : Type} (l : List α) (h : picks l = []) : l = [] := by
  cases l with
  | nil => rfl
  | cons x xs => simp [picks] at h

/-- No run stops before the return when no statement of the first batch
fails: in every state in which the main goroutine has not returned, some
goroutine can move. -/
theorem executor_progress (db : String → Option String) (st : Synthesis)
    (hok : ∀ k ∈ st.tables ++ st.joins.map (·.SQL), db k = none) (s : Run)
    (h : Reachable db (Executor.init st) s) (hpc : s.pc ≠ Pc.returned) :
    s.successors db ≠ [] := by
  have hl := late_reachable db st s h
  have hi := inv_reachable db st s h
  intro hnil
  simp only [Run.successors, List.append_eq_nil] at hnil
  obtain ⟨⟨hmain, htask⟩, hcloser⟩ := hnil
  simp only [Run.taskSteps, List.append_eq_nil, List.map_eq_nil_iff] at htask
  have hsp := picks_eq_nil _ htask.1
  have hfin := picks_eq_nil _ htask.2
  have hwg := hi.wg_eq
  simp only [Run.running, hsp, hfin, List.nil_append, List.append_nil, List.length_map] at hwg
  unfold Run.mainSteps at hmain
  split at hmain
  · split at hmain <;> simp at hmain
  · next hbar =>
    split_ifs at hmain with hz
    have hne : s.sending ≠ [] := by
      intro he
      rw [he] at hwg
      exact hz hwg
    obtain ⟨p, rest, hp⟩ := List.exists_cons_of_ne_nil hne
    have hmem : p ∈ s.sending := by rw [hp]; exact List.mem_cons_self _ _
    obtain ⟨err, herr⟩ := hl.sending_failed p hmem
    have htasks : p.1 ∈ s.tasks := by
      simp only [Run.tasks, Run.running, List.mem_append, List.mem_map]
      exact Or.inl (Or.inl (Or.inr ⟨p, hmem, rfl⟩))
    have hphase := (hi.early (Or.inr hbar)).1 p.1 htasks
    have hin : p.1.stmt ∈ st.tables ++ st.joins.map (·.SQL) := by
      refine hi.creates_perm.subset ?_
      refine List.mem_append_right _ (List.mem_map.mpr ⟨p.1, ?_, rfl⟩)
      exact List.mem_filter.mpr ⟨htasks, by simp [hphase]⟩
    rw [hok _ hin] at herr
    simp at herr
  · split at hmain <;> simp at hmain
  · next hdr =>
    simp only [List.append_eq_nil, List.map_eq_nil_iff] at hmain
    have hse := picks_eq_nil _ hmain.1
    rw [hse] at hwg
    have hclosed : s.closed = false := by
      cases hc : s.closed with
      | false => rfl
      | true => rw [hc] at hmain; simp at hmain
    rcases (hl.drain_at hdr).1 with hc | hc
    · simp [Run.closerSteps, hc, hwg] at hcloser
    · rw [hclosed] at hc
      simp at hc
  · next hret => exact hpc hret

/-- Every run is finite: a sequence of steps from a state `s` has at most
`s.measure` steps. -/
theorem executor_bounded (db : String → Option String) (l : List Run) :
    ∀ s : Run, List.Chain (fun a b => b ∈ a.successors db) s l → l.length ≤ s.measure := by
  induction l with
  | nil => intro s _; exact Nat.zero_le _
  | cons s1 rest ih =>
    intro s hc
    obtain ⟨hstep, hrest⟩ := List.chain_cons.mp hc
    have h1 := step_measure db s s1 (step_of_successor db s s1 hstep)
    have h2 := ih s1 hrest
    simp only [List.length_cons]
    omega

/-- The report and the progress on the statements of the record `Invoice` with
the alter statement rejected: the run that returns has logged the message of
the alter statement, and before the return some goroutine can always move. -/
theorem executor_report_invoice :
    (returnedRun.running = [] ∧ returnedRun.toCreate = [] ∧ returnedRun.toAlter = [] ∧
      ∃ msgs, returnedRun.log = "error count: 0" :: msgs ++ [""] ∧
        msgs.Perm (failureLines rejectsAlter (invoiceSchema.alters.map (·.SQL)))) ∧
    alterStartedRun.successors rejectsAlter ≠ [] :=
  ⟨executor_report rejectsAlter invoiceSchema returnedRun
      (follow_reachable rejectsAlter _ [0, 0, 0, 0, 0, 0, 0, 0, 0, 0, 0, 0] _ _
        Reachable.start (by decide)) rfl,
    executor_progress rejectsAlter invoiceSchema (by decide) alterStartedRun
      (follow_reachable rejectsAlter _ [0, 0, 0, 0, 0, 0] _ _ Reachable.start (by decide))
      (by decide)⟩

/-! ### Claims on the columns of the insert statement -/

/-- The descriptor of a field that is not tagged `dbskip` has the value of the
`column` annotation as column name. -/
theorem descriptor_column (field : StructField) (col : String)
    (hskip : field.Tag.Lookup "dbskip" = none)
    (hcol : field.Tag.Lookup "column" = some col) :
    (regularLogic.column field).ColumnString = col := by
  by_cases hkind : field.Typ.Kind = Kind.String
  · exact (descriptor_text field col hkind hskip hcol).1
  · simp only [regularLogic.column, hskip, hcol]
    cases hk : field.Typ.Kind
    all_goals first
      | exact absurd hk hkind
      | simp
    all_goals split_ifs
    all_goals simp

/-- The columns of the insert statement are those of the `CREATE TABLE`
statement for a record all of whose fields are plain. -/
theorem columns_agree_on_plain_fields (name : String) (fields : List StructField)
    (h : ∀ field ∈ fields, plainField field) :
    GetColumns (.struct name fields) = some (schemaColumns (.struct name fields)) := by
  have hflat : ∀ field ∈ fields, regularLogic.recurses field = false :=
    fun f hf => (h f hf).2.1
  have hwalk := (loop_flat name fields [] hflat).1
  simp only [GetColumns, RType.NumField, RType.Kind, RType.fields, schemaColumns,
    processTypeForColumns, RType.Name, if_true, hwalk, SchemaMap.at, List.nil_append]
  congr 1
  clear hwalk hflat
  induction fields with
  | nil => simp [ownDescriptors]
  | cons f fs ih =>
    have hf := h f (List.mem_cons_self _ _)
    have ih := ih (fun g hg => h g (List.mem_cons_of_mem _ hg))
    obtain ⟨hskip, _, hline⟩ := hf
    have hown : ownDescriptors (f :: fs) = regularLogic.column f :: ownDescriptors fs := by
      simp [ownDescriptors, List.filter, hskip]
    rw [hown]
    cases hcol : f.Tag.Lookup "column" with
    | none =>
      have hempty : regularLogic.column f = {} := by
        simp [regularLogic.column, hskip, hcol]
      rw [List.filterMap_cons, hcol, hempty, ih]
      simp [List.filter, rendersLine]
    | some col =>
      have hr := hline (by rw [hcol]; rfl)
      rw [List.filterMap_cons, hcol, ih, List.filter_cons, hr]
      simp [descriptor_column f col hskip hcol]

/-- C24 fails on the code: `GetColumns` lists the `column` annotation of every
field, while extraction skips a field tagged `dbskip` and `CreateTables`
renders no column line for a join field or for a field whose kind resolves to
no type.  For the record `Basket` the insert statement names four columns of
which the `CREATE TABLE` statement has one; for the record `Product`, which
has none of these fields, the two lists are the same. -/
theorem C24_insert_columns_not_in_schema :
    GetColumns Basket = some ["id", "secret", "items", "extra"] ∧
    schemaColumns Basket = ["id"] ∧
    createStatements [Basket] =
      some ["CREATE TABLE IF NOT EXISTS basket (\r\n    id varchar(35) PRIMARY KEY\r\n)\r\n"] ∧
    GetColumns Product = some ["id", "name"] ∧ schemaColumns Product = ["id", "name"] :=
  ⟨by decide, by decide, by decide, by decide, by decide⟩

/-! ### Claims on registration by pointer -/

/-- C25 fails on the code: for an entity registered by pointer `readAnnotations`
takes the name from the pointee, `t.Elem().Name()`, but hands the pointer type
itself to `processTypeForColumns`, which walks only a type of kind `Struct`.
So for every type `T` the map extracted for `*T` is empty and no `CREATE TABLE`
statement is produced, whereas the record `Product` registered by value gives
two descriptors under its name and one statement. -/
theorem C25_pointer_registration_extracts_nothing (T : RType) :
    readAnnotations [.ptr T] = [[], []] ∧
    createStatements [.ptr T] = some [] ∧
    (readAnnotations [Product]).map
      (fun columns => (columns.at "Product").map (·.ColumnString)) = [["id", "name"], []] ∧
    (readAnnotations [.ptr Product]).map
      (fun columns => (columns.at "Product").map (·.ColumnString)) = [[], []] ∧
    createStatements [Product] = some
      ["CREATE TABLE IF NOT EXISTS product (\r\n    id varchar(35) PRIMARY KEY,\r\n" ++
        "    name varchar(255)\r\n)\r\n"] := by
  refine ⟨?_, ?_, by decide, by decide, by decide⟩
  · simp [readAnnotations, processTypeForColumns]
  · simp [createStatements, readAnnotations, processTypeForColumns, CreateTables.synthesis,
      CreateTables.maps, CreateTables.map]

end GoDb
